import Mathlib

/-!
Verification development for the videoml-player core: a shallow embedding of
the composition time resolver (`src/xml.ts`), the playback timeline scheduler
(`src/runtime.ts`) and the structural patch protocol, with theorems about the
behaviour of these functions.

Modelling conventions:
* Times are rationals (`ℚ`).  The source works with IEEE doubles; every
  concrete value appearing in the theorems below is exactly representable, and
  no theorem relies on rounding behaviour.  `NaN` is modelled as `Option.none`
  at the spots where it can arise, and division is rational division (the
  source never divides by zero on the inputs considered here).
* The attributed markup tree is modelled as the inductive `Element`; parsing
  raw markup text into such a tree is an external collaborator of the system
  (spec section 1) and is not modelled.  For the same reason JSON property
  bags (`styles`/`markup`/`props` attributes) are carried as raw strings and
  never interpreted.
* Thrown JS exceptions are modelled with `Except`; the internal
  `MissingTimeReferenceError` is the `EvalErr.missingRef` constructor, every
  other thrown `Error` is `EvalErr.hard` with the exact message string.
-/

namespace VideoML

/-! ## Basic JS number helpers -/

/-- One decimal digit. -/
def isDig (c : Char) : Bool := '0' ≤ c && c ≤ '9'

/-- Numeric value of a digit list (most significant first). -/
def digitsToNat : List Char → Nat → Nat
  | [], acc => acc
  | c :: cs, acc => digitsToNat cs (acc * 10 + (c.toNat - '0'.toNat))

/-- Fractional value of a digit list read after the decimal point. -/
def fracToRat : List Char → ℚ
  | [] => 0
  | c :: cs => (((c.toNat - '0'.toNat : Nat) : ℚ) + fracToRat cs) / 10

/-- Parse the leading JS `StrDecimalLiteral` of a character list:
`digits+ ('.' digits*)? | '.' digits+`, optionally followed by an exponent
`(e|E) sign? digits+`.  Returns `none` when no digits are found (JS
`parseFloat` would return `NaN`). -/
def parseDecLead (cs : List Char) : Option ℚ :=
  let intPart := cs.takeWhile fun c => isDig c
  let rest := cs.dropWhile fun c => isDig c
  let core : Option (ℚ × List Char) :=
    match intPart, rest with
    | [], '.' :: r2 =>
        let frac := r2.takeWhile fun c => isDig c
        if frac = [] then none
        else some (fracToRat frac, r2.dropWhile fun c => isDig c)
    | [], _ => none
    | _, '.' :: r2 =>
        let frac := r2.takeWhile fun c => isDig c
        some (((digitsToNat intPart 0 : Nat) : ℚ) + fracToRat frac,
          r2.dropWhile fun c => isDig c)
    | _, r => some (((digitsToNat intPart 0 : Nat) : ℚ), r)
  match core with
  | none => none
  | some (m, r) =>
    match r with
    | 'e' :: r2 | 'E' :: r2 =>
        let expRest :=
          match r2 with
          | '+' :: r3 => some (true, r3)
          | '-' :: r3 => some (false, r3)
          | r3 => some (true, r3)
        match expRest with
        | some (pos, r3) =>
            let ds := r3.takeWhile fun c => isDig c
            if ds = [] then some m
            else
              let e : ℤ := if pos then (digitsToNat ds 0 : ℤ) else -(digitsToNat ds 0 : ℤ)
              some (m * (10 : ℚ) ^ e)
        | none => some m
    | _ => some m

/-- JS whitespace accepted by `parseFloat` before the number. -/
def isJsSpace (c : Char) : Bool :=
  c = ' ' || c = '\t' || c = '\n' || c = '\r'

/-- `String.trim` over the character list (the core `String.trim` walks
byte positions and does not reduce definitionally; inputs here are ASCII). -/
def jsTrim (s : String) : String :=
  String.mk (((s.data.dropWhile fun c => isJsSpace c).reverse.dropWhile fun c =>
    isJsSpace c).reverse)

/-- Decidable equality for `Except` results (both components decidable). -/
instance instDecEqExcept {e : Type} {a : Type} [DecidableEq e] [DecidableEq a] :
    DecidableEq (Except e a) := fun x y =>
  match x, y with
  | .ok v, .ok w => if h : v = w then .isTrue (by rw [h]) else .isFalse (by simp [h])
  | .error v, .error w => if h : v = w then .isTrue (by rw [h]) else .isFalse (by simp [h])
  | .ok _, .error _ => .isFalse (by simp)
  | .error _, .ok _ => .isFalse (by simp)

/-- Model of `Number.parseFloat`: skip leading whitespace, optional sign,
then the longest decimal-literal lead.  `none` stands for `NaN` (and for the
`Infinity` literal, which every call site in the sources either guards with
`Number.isFinite` or cannot reach). -/
def jsParseFloat (s : String) : Option ℚ :=
  let cs := s.data.dropWhile fun c => isJsSpace c
  match cs with
  | '+' :: r => parseDecLead r
  | '-' :: r => (parseDecLead r).map Neg.neg
  | r => parseDecLead r

/-- JS `Math.round`: round half toward positive infinity. -/
def jsRound (q : ℚ) : ℚ := (⌊q + 1/2⌋ : ℤ)

/-- Truncation toward zero, as used by the JS `%` operator. -/
def ratTrunc (q : ℚ) : ℤ := if 0 ≤ q then ⌊q⌋ else ⌈q⌉

/-- JS remainder operator `a % b` (sign of the dividend). -/
def jsMod (a b : ℚ) : ℚ := a - b * (ratTrunc (a / b) : ℤ)

/-! ## The attributed element tree -/

/-- A node of the markup tree: tag name, ordered attribute list, ordered
element children and text content.  (`src/xml.ts` reads elements through the
DOM; text nodes other than the concatenated text content are irrelevant to
the resolver and are not modelled.) -/
inductive Element where
  | mk (tag : String) (attrs : List (String × String)) (children : List Element)
       (text : String)
deriving Repr

def Element.tag : Element → String
  | .mk t _ _ _ => t

def Element.attrs : Element → List (String × String)
  | .mk _ a _ _ => a

def Element.children : Element → List Element
  | .mk _ _ c _ => c

def Element.text : Element → String
  | .mk _ _ _ t => t

/-- `el.getAttribute(name)` (first matching attribute, `null` as `none`). -/
def getAttr (el : Element) (name : String) : Option String :=
  (el.attrs.find? fun p => p.1 = name).map Prod.snd

/-! ## Time expression language: tokenizer (src/xml.ts, tokenizeTime) -/

inductive TimeUnit where
  | f | s | ms
deriving DecidableEq, Repr

inductive Token where
  | num (value : ℚ) (unit : Option TimeUnit)
  | ident (value : String)
  | op (value : Char)
  | paren (value : Char)
  | dot
  | comma
deriving DecidableEq, Repr

/-- Identifier start characters `[A-Za-z_]`. -/
def isIdentStart (c : Char) : Bool :=
  ('A' ≤ c && c ≤ 'Z') || ('a' ≤ c && c ≤ 'z') || c = '_'

/-- Identifier continuation characters `[A-Za-z0-9_-]`. -/
def isIdentCont (c : Char) : Bool :=
  isIdentStart c || isDig c || c = '-'

/-- Characters continuing a numeric literal, `[\d.]`. -/
def isNumCont (c : Char) : Bool := isDig c || c = '.'

/-- Worker for the tokenizer; `fuel` dominates the input length, and every
branch consumes at least one character, so the fuel used below never runs
out. -/
def tokenizeGo : Nat → List Char → List Token → Except String (List Token)
  | 0, _, _ => .error "tokenizer fuel exhausted"
  | _ + 1, [], acc => .ok acc.reverse
  | fuel + 1, ch :: rest, acc =>
    if ch = ' ' || ch = '\t' || ch = '\n' then
      tokenizeGo fuel rest acc
    else if ch = '+' || ch = '-' || ch = '*' || ch = '/' then
      tokenizeGo fuel rest (.op ch :: acc)
    else if ch = '(' || ch = ')' then
      tokenizeGo fuel rest (.paren ch :: acc)
    else if ch = '.' then
      tokenizeGo fuel rest (.dot :: acc)
    else if ch = ',' then
      tokenizeGo fuel rest (.comma :: acc)
    else if isDig ch then
      -- the source also admits a leading '.', but the dot branch above fires
      -- first, so in practice a number always starts with a digit
      let body := rest.takeWhile fun c => isNumCont c
      let after := rest.dropWhile fun c => isNumCont c
      let raw := String.mk (ch :: body)
      match after with
      | 'm' :: 's' :: after2 =>
          tokenizeGo fuel after2 (.num ((jsParseFloat raw).getD 0) (some .ms) :: acc)
      | 'f' :: after2 =>
          tokenizeGo fuel after2 (.num ((jsParseFloat raw).getD 0) (some .f) :: acc)
      | 's' :: after2 =>
          tokenizeGo fuel after2 (.num ((jsParseFloat raw).getD 0) (some .s) :: acc)
      | _ =>
          tokenizeGo fuel after (.num ((jsParseFloat raw).getD 0) none :: acc)
    else if isIdentStart ch then
      let body := rest.takeWhile fun c => isIdentCont c
      let after := rest.dropWhile fun c => isIdentCont c
      tokenizeGo fuel after (.ident (String.mk (ch :: body)) :: acc)
    else
      .error ("Unexpected character \"" ++ String.mk [ch] ++ "\" in time expression.")

/-- `tokenizeTime` from src/xml.ts. -/
def tokenizeTime (input : String) : Except String (List Token) :=
  tokenizeGo (input.length + 1) input.data []

/-! ## Time expression language: parser (src/xml.ts, parseTimeExpression) -/

inductive AstNode where
  | num (value : ℚ) (unit : Option TimeUnit)
  | ident (value : String)
  | binary (operator : Char) (left right : AstNode)
  | unary (operator : Char) (value : AstNode)
  | call (fname : String) (args : List AstNode)
  | propAccess (target : AstNode) (propName : String)
deriving Repr

mutual

/-- `parsePrimary` of the recursive-descent parser. -/
def parsePrimary : Nat → List Token → Except String (AstNode × List Token)
  | 0, _ => .error "parser fuel exhausted"
  | _ + 1, [] => .error "Unexpected end of time expression."
  | fuel + 1, tok :: rest =>
    match tok with
    | .num v u => .ok (.num v u, rest)
    | .ident name =>
      match rest with
      | .paren '(' :: rest2 =>
        match rest2 with
        | .paren ')' :: rest3 => parsePropChain fuel (.call name []) rest3
        | _ =>
          match parseCallArgs fuel rest2 [] with
          | .error e => .error e
          | .ok (args, rest3) =>
            match rest3 with
            | .paren ')' :: rest4 => parsePropChain fuel (.call name args) rest4
            | _ => .error "Expected closing ')' in time expression."
      | _ => parsePropChain fuel (.ident name) rest
    | .paren '(' =>
      match parseExprE fuel rest with
      | .error e => .error e
      | .ok (e, rest2) =>
        match rest2 with
        | .paren ')' :: rest3 => .ok (e, rest3)
        | _ => .error "Expected closing ')' in time expression."
    | _ => .error "Invalid time expression."

/-- The argument list loop inside `parsePrimary`. -/
def parseCallArgs : Nat → List Token → List AstNode →
    Except String (List AstNode × List Token)
  | 0, _, _ => .error "parser fuel exhausted"
  | fuel + 1, ts, acc =>
    match parseExprE fuel ts with
    | .error e => .error e
    | .ok (arg, rest) =>
      match rest with
      | .comma :: rest2 => parseCallArgs fuel rest2 (arg :: acc)
      | _ => .ok ((arg :: acc).reverse, rest)

/-- The property-access chain loop (`.start`, `.end`, ...). -/
def parsePropChain : Nat → AstNode → List Token →
    Except String (AstNode × List Token)
  | 0, _, _ => .error "parser fuel exhausted"
  | fuel + 1, node, ts =>
    match ts with
    | .dot :: rest =>
      match rest with
      | .ident p :: rest2 => parsePropChain fuel (.propAccess node p) rest2
      | _ => .error "Expected property name after '.'."
    | _ => .ok (node, ts)

/-- `parseUnary`. -/
def parseUnaryE : Nat → List Token → Except String (AstNode × List Token)
  | 0, _ => .error "parser fuel exhausted"
  | fuel + 1, ts =>
    match ts with
    | .op '+' :: rest =>
      match parseUnaryE fuel rest with
      | .error e => .error e
      | .ok (v, rest2) => .ok (.unary '+' v, rest2)
    | .op '-' :: rest =>
      match parseUnaryE fuel rest with
      | .error e => .error e
      | .ok (v, rest2) => .ok (.unary '-' v, rest2)
    | _ => parsePrimary fuel ts

/-- The `* /` loop of `parseTerm`. -/
def parseTermRest : Nat → AstNode → List Token →
    Except String (AstNode × List Token)
  | 0, _, _ => .error "parser fuel exhausted"
  | fuel + 1, node, ts =>
    match ts with
    | .op '*' :: rest =>
      match parseUnaryE fuel rest with
      | .error e => .error e
      | .ok (rhs, rest2) => parseTermRest fuel (.binary '*' node rhs) rest2
    | .op '/' :: rest =>
      match parseUnaryE fuel rest with
      | .error e => .error e
      | .ok (rhs, rest2) => parseTermRest fuel (.binary '/' node rhs) rest2
    | _ => .ok (node, ts)

/-- `parseTerm`. -/
def parseTermE : Nat → List Token → Except String (AstNode × List Token)
  | 0, _ => .error "parser fuel exhausted"
  | fuel + 1, ts =>
    match parseUnaryE fuel ts with
    | .error e => .error e
    | .ok (n, rest) => parseTermRest fuel n rest

/-- The `+ -` loop of `parseExpression`. -/
def parseExprRest : Nat → AstNode → List Token →
    Except String (AstNode × List Token)
  | 0, _, _ => .error "parser fuel exhausted"
  | fuel + 1, node, ts =>
    match ts with
    | .op '+' :: rest =>
      match parseTermE fuel rest with
      | .error e => .error e
      | .ok (rhs, rest2) => parseExprRest fuel (.binary '+' node rhs) rest2
    | .op '-' :: rest =>
      match parseTermE fuel rest with
      | .error e => .error e
      | .ok (rhs, rest2) => parseExprRest fuel (.binary '-' node rhs) rest2
    | _ => .ok (node, ts)

/-- `parseExpression`. -/
def parseExprE : Nat → List Token → Except String (AstNode × List Token)
  | 0, _ => .error "parser fuel exhausted"
  | fuel + 1, ts =>
    match parseTermE fuel ts with
    | .error e => .error e
    | .ok (n, rest) => parseExprRest fuel n rest

end

/-- `parseTimeExpression` from src/xml.ts: tokenize, parse, and require all
tokens consumed.  The fuel is generous enough for any token list; running out
of fuel is impossible for the nesting depths reachable from a finite token
list, and all parses appearing in theorems below are concrete. -/
def parseTimeExpression (input : String) : Except String AstNode :=
  match tokenizeTime input with
  | .error e => .error e
  | .ok tokens =>
    match parseExprE (8 * (tokens.length + 2)) tokens with
    | .error e => .error e
    | .ok (expr, rest) =>
      if rest = [] then .ok expr
      else .error "Unexpected token in time expression."

/-! ## Time expression language: evaluator (src/xml.ts, evalTimeAst) -/

/-- The resolution context handed to the evaluator; the JS closures are pure
lookups over the resolver state, so they are modelled as functions and
pre-computed optional values. -/
structure TimeEvalContext where
  fps : ℚ
  getSceneStart : String → Option ℚ
  getSceneEnd : String → Option ℚ
  getCueStart : String → Option ℚ
  getPrevStart : Option ℚ
  getPrevEnd : Option ℚ
  getNextStart : Option ℚ

/-- Evaluation failures: the distinguished `MissingTimeReferenceError`
(consumed by the resolver's fixed-point loop) versus ordinary thrown
`Error`s. -/
inductive EvalErr where
  | missingRef (ref : String)
  | hard (msg : String)
deriving DecidableEq, Repr

mutual

/-- `evalTimeAst` from src/xml.ts. -/
def evalTimeAst : AstNode → TimeEvalContext → Except EvalErr ℚ
  | .num v u, ctx =>
    match u with
    | none => .ok v
    | some .f => .ok (v / ctx.fps)
    | some .ms => .ok (v / 1000)
    | some .s => .ok v
  | .ident name, _ =>
    if name = "timeline" then
      .error (.hard "timeline requires a property (e.g. timeline.start).")
    else
      .error (.hard ("Unknown identifier \"" ++ name ++ "\" in time expression."))
  | .unary operator v, ctx =>
    match evalTimeAst v ctx with
    | .error e => .error e
    | .ok val => .ok (if operator = '-' then -val else val)
  | .binary operator l r, ctx =>
    match evalTimeAst l ctx with
    | .error e => .error e
    | .ok lv =>
      match evalTimeAst r ctx with
      | .error e => .error e
      | .ok rv =>
        if operator = '+' then .ok (lv + rv)
        else if operator = '-' then .ok (lv - rv)
        else if operator = '*' then .ok (lv * rv)
        else .ok (lv / rv)
  | .call name args, ctx =>
    if name = "min" || name = "max" then
      if args.length < 2 then
        .error (.hard (name ++ " requires at least 2 arguments."))
      else
        match evalTimeAstList args ctx with
        | .error e => .error e
        | .ok values =>
          match values with
          | [] => .error (.hard "empty argument list")
          | v :: vs =>
            .ok (if name = "min" then vs.foldl min v else vs.foldl max v)
    else if name = "clamp" then
      if args.length ≠ 3 then .error (.hard "clamp requires 3 arguments.")
      else
        match args with
        | [a, b, c] =>
          match evalTimeAst a ctx with
          | .error e => .error e
          | .ok value =>
            match evalTimeAst b ctx with
            | .error e => .error e
            | .ok lo =>
              match evalTimeAst c ctx with
              | .error e => .error e
              | .ok hi => .ok (min hi (max lo value))
        | _ => .error (.hard "clamp requires 3 arguments.")
    else if name = "snap" then
      if args.length ≠ 2 then .error (.hard "snap requires 2 arguments.")
      else
        match args with
        | [a, b] =>
          match evalTimeAst a ctx with
          | .error e => .error e
          | .ok value =>
            match evalTimeAst b ctx with
            | .error e => .error e
            | .ok grid => .ok (if grid = 0 then value else jsRound (value / grid) * grid)
        | _ => .error (.hard "snap requires 2 arguments.")
    else if name = "scene" then
      match args with
      | .ident id :: _ =>
        match ctx.getSceneStart id with
        | some v => .ok v
        | none => .error (.missingRef ("scene(" ++ id ++ ")"))
      | _ => .error (.hard "scene() requires an identifier argument.")
    else if name = "cue" then
      match args with
      | .ident id :: _ =>
        match ctx.getCueStart id with
        | some v => .ok v
        | none => .error (.missingRef ("cue(" ++ id ++ ")"))
      | _ => .error (.hard "cue() requires an identifier argument.")
    else
      .error (.hard ("Unknown function \"" ++ name ++ "\"."))
  | .propAccess target p, ctx =>
    if target matches .ident "prev" then
      if p = "start" then
        match ctx.getPrevStart with
        | some v => .ok v
        | none => .error (.missingRef "prev.start")
      else if p = "end" then
        match ctx.getPrevEnd with
        | some v => .ok v
        | none => .error (.missingRef "prev.end")
      else .error (.hard ("Unsupported property access \"." ++ p ++ "\"."))
    else if target matches .ident "next" then
      if p = "start" then
        match ctx.getNextStart with
        | some v => .ok v
        | none => .error (.missingRef "next.start")
      else .error (.hard ("Unsupported property access \"." ++ p ++ "\"."))
    else if target matches .ident "timeline" then
      if p = "start" then .ok 0
      else .error (.hard ("Unsupported property access \"." ++ p ++ "\"."))
    else
      match target with
      | .call "scene" targs =>
        match targs with
        | .ident id :: _ =>
          if p = "start" then
            match ctx.getSceneStart id with
            | some v => .ok v
            | none => .error (.missingRef ("scene(" ++ id ++ ").start"))
          else if p = "end" then
            match ctx.getSceneEnd id with
            | some v => .ok v
            | none => .error (.missingRef ("scene(" ++ id ++ ").end"))
          else .error (.hard ("Unsupported property access \"." ++ p ++ "\"."))
        | _ => .error (.hard "scene() requires an identifier argument.")
      | _ => .error (.hard ("Unsupported property access \"." ++ p ++ "\"."))
termination_by structural node _ctx => node

/-- Left-to-right evaluation of an argument list (`node.args.map(...)`). -/
def evalTimeAstList : List AstNode → TimeEvalContext → Except EvalErr (List ℚ)
  | [], _ => .ok []
  | a :: rest, ctx =>
    match evalTimeAst a ctx with
    | .error e => .error e
    | .ok v =>
      match evalTimeAstList rest ctx with
      | .error e => .error e
      | .ok vs => .ok (v :: vs)
termination_by structural args _ctx => args

end

/-- `parseTimeValue` from src/xml.ts: parse the trimmed attribute and
evaluate it; parse errors are ordinary hard errors. -/
def parseTimeValue (value : String) (ctx : TimeEvalContext) : Except EvalErr ℚ :=
  match parseTimeExpression (jsTrim value) with
  | .error e => .error (.hard e)
  | .ok expr => evalTimeAst expr ctx

/-! ## parseNumber (src/xml.ts)

The regex literal in the source reads `/^[-+]?\\d+(\\.\\d+)?$/`.  Inside a JS
regex literal `\\` denotes one literal backslash character, so the pattern is:
optional sign, a backslash, one or more letters `d`, optionally (backslash,
any character, backslash, letters `d`).  No ordinary numeric string contains a
backslash, so such strings never match; a string that does match starts (after
the sign) with a backslash, on which `Number.parseFloat` returns `NaN`
(modelled as `none`). -/

/-- Consume one or more literal `d` characters. -/
def matchDPlus (cs : List Char) : Option (List Char) :=
  match cs with
  | 'd' :: rest => some (rest.dropWhile fun c => c = 'd')
  | _ => none

/-- Match the optional trailing group `\\ . \\ d+` against the end of the
input (the `.` of the pattern is the any-character metacharacter). -/
def matchNumTail (cs : List Char) : Bool :=
  match cs with
  | '\\' :: c2 :: '\\' :: rest =>
    -- c2 is the any-character; the rest must be d+ to the end
    (c2 = c2) && (matchDPlus rest).any fun r => r = []
  | _ => false

/-- Full match of the (double-escaped) `parseNumber` pattern. -/
def parseNumberMatches (s : String) : Bool :=
  let cs :=
    match s.data with
    | '+' :: r => r
    | '-' :: r => r
    | r => r
  match cs with
  | '\\' :: r =>
    match matchDPlus r with
    | none => false
    | some r2 => r2 = [] || matchNumTail r2
  | _ => false

/-- `parseNumber` from src/xml.ts.  `!value` rejects both `null` and the
empty string; on the (backslash-containing) strings that do match the
pattern, `Number.parseFloat` yields `NaN`, modelled `none`. -/
def parseNumber (value : Option String) : Option ℚ :=
  match value with
  | none => none
  | some s =>
    if s = "" then none
    else if parseNumberMatches s then jsParseFloat s
    else none

/-! ## Resolved composition data model (the objects built by
loadVideoFileFromXml; JSON property bags kept as raw strings / omitted) -/

structure Timing where
  startSec : Option ℚ
  endSec : Option ℚ
deriving DecidableEq, Repr

structure TimeRange where
  start : ℚ
  endTime : Option ℚ
deriving DecidableEq, Repr

inductive PropValue where
  | bool (b : Bool)
  | num (q : ℚ)
  | str (s : String)
deriving DecidableEq, Repr

inductive PauseSpec where
  | fixed (seconds : ℚ)
  | gaussian (mean std : ℚ) (minVal maxVal : Option ℚ)
deriving DecidableEq, Repr

inductive CueSegment where
  | text (content : String) (trimEndSec : Option ℚ)
  | pause (p : PauseSpec)
deriving DecidableEq, Repr

structure CueSpec where
  id : String
  label : String
  segments : List CueSegment
  bullets : List String
  provider : Option String
  time : Option TimeRange
deriving DecidableEq, Repr

structure ComponentSpec where
  id : String
  type : String
  props : List (String × PropValue)
  timing : Option Timing
  visible : Option Bool
  zIndex : Option ℚ
deriving DecidableEq, Repr

structure LayerSpec where
  id : String
  timing : Option Timing
  visible : Option Bool
  zIndex : Option ℚ
  components : List ComponentSpec
deriving DecidableEq, Repr

inductive SceneItem where
  | cueItem (c : CueSpec)
  | pauseItem (p : PauseSpec)
deriving DecidableEq, Repr

structure SceneData where
  id : String
  title : String
  time : Option Timing
  items : List SceneItem
  layers : Option (List LayerSpec)
  components : Option (List ComponentSpec)
deriving DecidableEq, Repr

structure Meta where
  fps : ℚ
  width : ℚ
  height : ℚ
  durationSeconds : Option ℚ
deriving DecidableEq, Repr

structure VoiceoverSpec where
  provider : Option String
  voice : Option String
  model : Option String
  format : Option String
  sampleRateHz : Option ℚ
  seed : Option ℚ
  leadInSeconds : Option ℚ
  trimEndSeconds : Option ℚ
deriving DecidableEq, Repr

structure CompositionSpec where
  id : String
  title : Option String
  meta : Meta
  posterTime : Option ℚ
  voiceover : Option VoiceoverSpec
  scenes : List SceneData
deriving DecidableEq, Repr

structure VideoSpec where
  compositions : List CompositionSpec
deriving DecidableEq, Repr

/-! ## Attribute parsing helpers of the resolver -/

/-- `toCamelCase`: each dash followed by a lowercase letter is replaced by
the uppercased letter (global regex replace). -/
def toCamelCaseGo : List Char → List Char
  | [] => []
  | '-' :: c :: rest =>
    if 'a' ≤ c && c ≤ 'z' then c.toUpper :: toCamelCaseGo rest
    else '-' :: toCamelCaseGo (c :: rest)
  | c :: rest => c :: toCamelCaseGo rest

def toCamelCase (value : String) : String := String.mk (toCamelCaseGo value.data)

/-- `toPascalCase`: split on `-`, drop empty parts, capitalise each. -/
def splitDash (cs : List Char) (cur : List Char) : List (List Char) :=
  match cs with
  | [] => [cur.reverse]
  | '-' :: rest => cur.reverse :: splitDash rest []
  | c :: rest => splitDash rest (c :: cur)

/-- Capitalise the first character of a part. -/
def capFirst (p : List Char) : String :=
  match p with
  | [] => ""
  | c :: rest => String.mk (c.toUpper :: rest)

def toPascalCase (value : String) : String :=
  String.join (((splitDash value.data []).filter fun p => p ≠ []).map capFirst)

/-- The reserved attributes never passed through as props. -/
def reservedAttrs : List String :=
  ["id", "visible", "z", "start", "end", "duration", "styles", "markup", "props"]

/-- `parseProps`: every non-reserved attribute becomes a typed prop (the
`props` JSON attribute itself is an opaque external parse and is not
modelled).  Note the numeric coercion goes through the broken `parseNumber`
above and therefore never fires. -/
def parseProps (el : Element) : List (String × PropValue) :=
  let step := fun (acc : List (String × PropValue)) (attr : String × String) =>
    if attr.1 = "props" || reservedAttrs.contains attr.1 then acc
    else
      let key := toCamelCase attr.1
      if attr.2 = "true" then acc ++ [(key, .bool true)]
      else if attr.2 = "false" then acc ++ [(key, .bool false)]
      else
        match parseNumber (some attr.2) with
        | some n => acc ++ [(key, .num n)]
        | none => acc ++ [(key, .str attr.2)]
  el.attrs.foldl step []

/-- `DEFAULT_SEQUENCE_CHILD_SECONDS`. -/
def DEFAULT_SEQUENCE_CHILD_SECONDS : ℚ := 1

/-- `parseContainerTiming` from src/xml.ts. -/
def parseContainerTiming (el : Element) (ctx : TimeEvalContext) :
    Except EvalErr (ℚ × Option ℚ) :=
  match getAttr el "start", getAttr el "end", getAttr el "duration" with
  | none, none, none => .ok (0, none)
  | startRaw, endRaw, durationRaw => do
    let start ← match startRaw with
      | some s => parseTimeValue s ctx
      | none => pure 0
    let endV ← match endRaw with
      | some s => (parseTimeValue s ctx).map some
      | none => pure none
    match durationRaw, endV with
    | some d, none => do
      let duration ← parseTimeValue d ctx
      return (start, some (start + duration))
    | _, _ => return (start, endV)

/-- `parseTimeRange` from src/xml.ts (used for cue timing). -/
def parseTimeRange (el : Element) (ctx : TimeEvalContext) (label : String) :
    Except EvalErr (Option TimeRange) :=
  match getAttr el "start", getAttr el "end", getAttr el "duration" with
  | none, none, none => .ok none
  | none, endRaw, durationRaw =>
    if endRaw.isSome || durationRaw.isSome then
      .error (.hard (label ++ " timing requires start when end or duration is provided."))
    else .ok none
  | some startRaw, endRaw, durationRaw => do
    let start ← parseTimeValue startRaw ctx
    let endExplicit ← match endRaw with
      | some s => (parseTimeValue s ctx).map some
      | none => pure none
    match durationRaw, endExplicit with
    | some d, none => do
      let duration ← parseTimeValue d ctx
      return some ⟨start, some (start + duration)⟩
    | _, some e => return some ⟨start, some e⟩
    | none, none => return some ⟨start, none⟩

/-- `parseTiming` from src/xml.ts (scene / layer / component timing). -/
def parseTiming (el : Element) (ctx : TimeEvalContext) :
    Except EvalErr (Option Timing) :=
  match getAttr el "start", getAttr el "end", getAttr el "duration" with
  | none, none, none => .ok none
  | startRaw, endRaw, durationRaw =>
    match (match startRaw with
           | some s => (parseTimeValue s ctx).map some
           | none => .ok (if durationRaw.isSome then some (0 : ℚ) else none)) with
    | .error e => .error e
    | .ok start =>
      match (match endRaw with
             | some s => (parseTimeValue s ctx).map some
             | none => .ok none) with
      | .error e => .error e
      | .ok endV =>
        match start, durationRaw, endV with
        | some startV, some d, none =>
          match parseTimeValue d ctx with
          | .error e => .error e
          | .ok duration => .ok (some ⟨some startV, some (startV + duration)⟩)
        | _, _, _ => .ok (some ⟨start, endV⟩)

/-- `parsePause` from src/xml.ts. -/
def parsePause (el : Element) (ctx : TimeEvalContext) : Except EvalErr PauseSpec :=
  match getAttr el "seconds" with
  | some secondsRaw => do
    let s ← parseTimeValue secondsRaw ctx
    return .fixed s
  | none =>
    match getAttr el "mean", getAttr el "std" with
    | some meanRaw, some stdRaw => do
      let mean ← parseTimeValue meanRaw ctx
      let std ← parseTimeValue stdRaw ctx
      let minV ← match getAttr el "min" with
        | some s => (parseTimeValue s ctx).map some
        | none => pure none
      let maxV ← match getAttr el "max" with
        | some s => (parseTimeValue s ctx).map some
        | none => pure none
      return .gaussian mean std minV maxV
    | _, _ => .error (.hard "pause requires seconds or mean+std.")

/-- `(textContent ?? "").replace(/\\s+/g, " ")`: the (double-escaped) pattern
matches a literal backslash followed by one or more letters `s`. -/
def replaceBackslashSGo : Nat → List Char → List Char
  | 0, l => l
  | _ + 1, [] => []
  | fuel + 1, '\\' :: 's' :: rest =>
      ' ' :: replaceBackslashSGo fuel (rest.dropWhile fun c => c = 's')
  | fuel + 1, c :: rest => c :: replaceBackslashSGo fuel rest

/-- Entry point with sufficient fuel (each step consumes at least one
character). -/
def replaceBackslashS (cs : List Char) : List Char :=
  replaceBackslashSGo (cs.length + 1) cs

/-- Normalisation applied to voice / bullet text content. -/
def normalizeText (s : String) : String :=
  jsTrim (String.mk (replaceBackslashS s.data))

/-- `parseCue`'s child loop, building voice / pause segments and bullets. -/
def parseCueChildren (children : List Element) (ctx : TimeEvalContext) :
    Except EvalErr (List CueSegment × List String) :=
  match children with
  | [] => .ok ([], [])
  | child :: rest => do
    let (segs, bullets) ←
      (if child.tag = "voice" then do
        let txt := normalizeText child.text
        if txt = "" then pure ([], [])
        else do
          let trimEnd ← match getAttr child "trim-end" with
            | some s => (parseTimeValue s ctx).map some
            | none => pure none
          pure ([CueSegment.text txt trimEnd], [])
      else if child.tag = "pause" then do
        let p ← parsePause child ctx
        pure ([CueSegment.pause p], [])
      else if child.tag = "bullet" then
        let b := normalizeText child.text
        pure ([], if b = "" then [] else [b])
      else pure ([], []) : Except EvalErr (List CueSegment × List String))
    let (restSegs, restBullets) ← parseCueChildren rest ctx
    return (segs ++ restSegs, bullets ++ restBullets)

/-- `parseCue` from src/xml.ts. -/
def parseCue (el : Element) (ctx : TimeEvalContext) : Except EvalErr CueSpec :=
  match getAttr el "id" with
  | none => .error (.hard "cue requires id.")
  | some id =>
    let label := (getAttr el "label").getD id
    let provider := getAttr el "provider"
    match parseTimeRange el ctx ("cue \"" ++ id ++ "\"") with
    | .error e => .error e
    | .ok time =>
      match parseCueChildren el.children ctx with
      | .error e => .error e
      | .ok (segments, bullets) => .ok ⟨id, label, segments, bullets, provider, time⟩

/-- The tag names skipped inside layers and containers. -/
def skipTags : List String :=
  ["scene", "cue", "layer", "pause", "voice", "bullet", "voiceover"]

/-- `parseComponentElement` from src/xml.ts (styles / markup JSON blobs are
presentation-only property bags and are not modelled). -/
def parseComponentElement (el : Element) (ctx : TimeEvalContext)
    (componentIndex : Nat) (timingOverride : Option Timing) :
    Except EvalErr ComponentSpec := do
  let props := parseProps el
  let timing ← match timingOverride with
    | some t => pure (some t)
    | none => parseTiming el ctx
  let compId := (getAttr el "id").getD (el.tag ++ "-" ++ toString componentIndex)
  let compType := toPascalCase el.tag
  let visible := (getAttr el "visible").map fun v => v == "true"
  let zIndex := match getAttr el "z" with
    | some z => parseNumber (some z)
    | none => none
  return ⟨compId, compType, props, timing, visible, zIndex⟩

inductive Flow where
  | sequence | stack
deriving DecidableEq, Repr

mutual

/-- `parseContainerChildren` from src/xml.ts (style / markup cascading
omitted — those property bags are not modelled). -/
def parseContainerChildren (el : Element) (ctx : TimeEvalContext)
    (componentIndex : Nat) (containerStart : ℚ) (flow : Flow) :
    Except EvalErr (List ComponentSpec × Nat × Option ℚ) :=
  match el with
  | .mk _ _ kids _ =>
    parseContainerGo kids ctx componentIndex containerStart flow containerStart none []
termination_by structural el

/-- The loop body of `parseContainerChildren`: `cursor` and `maxEnd` are the
mutable locals, `acc` the components list built so far. -/
def parseContainerGo (children : List Element) (ctx : TimeEvalContext)
    (componentIndex : Nat) (containerStart : ℚ) (flow : Flow)
    (cursor : ℚ) (maxEnd : Option ℚ) (acc : List ComponentSpec) :
    Except EvalErr (List ComponentSpec × Nat × Option ℚ) :=
  match children with
  | [] =>
    let finalMax := if flow = .sequence then some cursor else maxEnd
    .ok (acc, componentIndex, finalMax)
  | child :: rest =>
    if skipTags.contains child.tag then
      parseContainerGo rest ctx componentIndex containerStart flow cursor maxEnd acc
    else if child.tag = "sequence" || child.tag = "stack" then
      match parseContainerTiming child ctx with
      | .error e => .error e
      | .ok childTiming =>
        let childStart := containerStart + childTiming.1
        let childFlow : Flow := if child.tag = "sequence" then .sequence else .stack
        let nestedStart := if flow = .sequence then cursor else childStart
        match parseContainerChildren child ctx componentIndex nestedStart childFlow with
        | .error e => .error e
        | .ok (nestedComps, nestedIdx, nestedMax) =>
          let cursor2 := if flow = .sequence then nestedMax.getD cursor else cursor
          let maxEnd2 :=
            if flow = .sequence then maxEnd
            else match nestedMax, maxEnd with
              | some nm, some m => some (max m nm)
              | some nm, none => some nm
              | none, m => m
          parseContainerGo rest ctx nestedIdx containerStart flow cursor2 maxEnd2
            (acc ++ nestedComps)
    else
      match (do
        let startOffset ← match getAttr child "start" with
          | some s => (parseTimeValue s ctx).map some
          | none => pure none
        let endOffset ← match getAttr child "end" with
          | some s => (parseTimeValue s ctx).map some
          | none => pure none
        let durationValue ← match getAttr child "duration" with
          | some s => (parseTimeValue s ctx).map some
          | none => pure none
        pure (startOffset, endOffset, durationValue) :
          Except EvalErr (Option ℚ × Option ℚ × Option ℚ)) with
      | .error e => .error e
      | .ok (startOffset, endOffset, durationValue) =>
        let baseStart := if flow = .sequence then cursor else containerStart
        let childStart := baseStart + startOffset.getD 0
        let childEnd : Option ℚ :=
          match durationValue with
          | some d => some (childStart + d)
          | none =>
            match endOffset with
            | some e => some (containerStart + e)
            | none =>
              if flow = .sequence then some (childStart + DEFAULT_SEQUENCE_CHILD_SECONDS)
              else none
        match parseComponentElement child ctx componentIndex
            (some ⟨some childStart, childEnd⟩) with
        | .error e => .error e
        | .ok comp =>
          let cursor2 := if flow = .sequence then childEnd.getD cursor else cursor
          let maxEnd2 :=
            if flow = .sequence then maxEnd
            else match childEnd, maxEnd with
              | some ce, some m => some (max m ce)
              | some ce, none => some ce
              | none, m => m
          parseContainerGo rest ctx (componentIndex + 1) containerStart flow
            cursor2 maxEnd2 (acc ++ [comp])
termination_by structural children

end

/-- The layer-children loop of `loadVideoFileFromXml` (lines 881-903). -/
def parseLayerChildren (children : List Element) (ctx : TimeEvalContext)
    (layerComponentIndex : Nat) (acc : List ComponentSpec) :
    Except EvalErr (List ComponentSpec × Nat) :=
  match children with
  | [] => .ok (acc, layerComponentIndex)
  | child :: rest =>
    if skipTags.contains child.tag then
      parseLayerChildren rest ctx layerComponentIndex acc
    else if child.tag = "sequence" || child.tag = "stack" then
      match parseContainerTiming child ctx with
      | .error e => .error e
      | .ok containerTiming =>
        let containerStart := containerTiming.1
        let childFlow : Flow := if child.tag = "sequence" then .sequence else .stack
        match parseContainerChildren child ctx layerComponentIndex containerStart
            childFlow with
        | .error e => .error e
        | .ok (comps, idx2, _) =>
          parseLayerChildren rest ctx idx2 (acc ++ comps)
    else
      match parseComponentElement child ctx layerComponentIndex none with
      | .error e => .error e
      | .ok comp => parseLayerChildren rest ctx (layerComponentIndex + 1) (acc ++ [comp])

/-- The `layer` branch of the scene-children loop. -/
def parseLayer (el : Element) (ctx : TimeEvalContext) : Except EvalErr LayerSpec :=
  match getAttr el "id" with
  | none => .error (.hard "layer requires id.")
  | some layerId => do
    let layerTiming ← parseTiming el ctx
    let visible := (getAttr el "visible").map fun v => v == "true"
    let zIndex := match getAttr el "z" with
      | some z => parseNumber (some z)
      | none => none
    let (comps, _) ← parseLayerChildren el.children ctx 0 []
    return ⟨layerId, layerTiming, visible, zIndex, comps⟩

/-! ## The resolver state and fixed-point loop (loadVideoFileFromXml) -/

/-- The mutable indices of the resolution loop.  The JS `Map`s are modelled
as association lists where `set` conses in front (so a later `set` shadows an
earlier one, matching `Map.set` overwrite semantics) and `get` takes the
first match; `cueIds` is the `Set` of registered cue ids; `scenes` is the
sparse result array, one slot per top-level scene element. -/
structure ResolveState where
  cueIds : List String
  sceneStartIndex : List (String × ℚ)
  sceneEndIndex : List (String × ℚ)
  cueStartIndex : List (String × ℚ)
  scenes : List (Option SceneData)
deriving DecidableEq, Repr

/-- `Map.get` (first match wins, newest entries in front). -/
def mapGet (m : List (String × ℚ)) (k : String) : Option ℚ :=
  (m.find? fun p => p.1 = k).map Prod.snd

/-- `Map.set` (shadowing insert). -/
def mapSet (m : List (String × ℚ)) (k : String) (v : ℚ) : List (String × ℚ) :=
  (k, v) :: m

/-- A placeholder for out-of-range scene indexing (never reached: the pending
set only holds indices below the number of scene elements). -/
def dummyElement : Element := .mk "" [] [] ""

/-- Scene-children loop of the resolver (lines 858-933).  Only the `cue`
branch mutates the shared state (`cueIds`, `cueStartIndex`); the mutations
performed before a `MissingTimeReferenceError` aborts the scene are kept, as
in the source, which never rolls them back. -/
def processSceneChildren (children : List Element) (ctx : TimeEvalContext)
    (st : ResolveState) (items : List SceneItem) (layers : List LayerSpec)
    (comps : List ComponentSpec) (componentIndex : Nat) :
    ResolveState × Except EvalErr (List SceneItem × List LayerSpec × List ComponentSpec) :=
  match children with
  | [] => (st, .ok (items, layers, comps))
  | child :: rest =>
    if child.tag = "cue" then
      match parseCue child ctx with
      | .error e => (st, .error e)
      | .ok cue =>
        if st.cueIds.contains cue.id then
          (st, .error (.hard ("Duplicate cue id across scenes: \"" ++ cue.id ++ "\".")))
        else
          let st2 := { st with cueIds := st.cueIds ++ [cue.id] }
          let st3 :=
            match cue.time with
            | some t => { st2 with cueStartIndex := mapSet st2.cueStartIndex cue.id t.start }
            | none => st2
          processSceneChildren rest ctx st3 (items ++ [.cueItem cue]) layers comps
            componentIndex
    else if child.tag = "pause" then
      match parsePause child ctx with
      | .error e => (st, .error e)
      | .ok p =>
        processSceneChildren rest ctx st (items ++ [.pauseItem p]) layers comps
          componentIndex
    else if child.tag = "layer" then
      match parseLayer child ctx with
      | .error e => (st, .error e)
      | .ok layer =>
        processSceneChildren rest ctx st items (layers ++ [layer]) comps componentIndex
    else if child.tag = "sequence" || child.tag = "stack" then
      match parseContainerTiming child ctx with
      | .error e => (st, .error e)
      | .ok containerTiming =>
        let containerStart := containerTiming.1
        let childFlow : Flow := if child.tag = "sequence" then .sequence else .stack
        match parseContainerChildren child ctx componentIndex containerStart childFlow with
        | .error e => (st, .error e)
        | .ok (parsed, idx2, _) =>
          processSceneChildren rest ctx st items layers (comps ++ parsed) idx2
    else
      match parseComponentElement child ctx componentIndex none with
      | .error e => (st, .error e)
      | .ok comp =>
        processSceneChildren rest ctx st items layers (comps ++ [comp])
          (componentIndex + 1)

/-- The body of the resolver's `try` block for one pending scene element. -/
def processScene (sceneEl : Element) (ctx : TimeEvalContext) (st : ResolveState) :
    ResolveState × Except EvalErr SceneData :=
  match getAttr sceneEl "id" with
  | none => (st, .error (.hard "scene requires id."))
  | some sceneId =>
    if sceneId = "" then (st, .error (.hard "scene requires id."))
    else
    let sceneTitle := (getAttr sceneEl "title").getD sceneId
    match parseTiming sceneEl ctx with
    | .error e => (st, .error e)
    | .ok sceneTiming =>
      match processSceneChildren sceneEl.children ctx st [] [] [] 0 with
      | (st2, .error e) => (st2, .error e)
      | (st2, .ok (items, layers, comps)) =>
        (st2, .ok
          { id := sceneId
            title := sceneTitle
            time := sceneTiming
            items := items
            layers := if layers.isEmpty then none else some layers
            components := if comps.isEmpty then none else some comps })

/-- The resolution context built for scene `index` on each attempt (lines
833-845): lookups read the indices resolved so far, `prev` is the already
committed entry of the scene result array, `next` the following scene
element. -/
def buildCtx (sceneEls : List Element) (fps : ℚ) (st : ResolveState) (index : Nat) :
    TimeEvalContext :=
  let prev : Option SceneData :=
    if index > 0 then (st.scenes.getD (index - 1) none) else none
  let next : Option Element := sceneEls[index + 1]?
  { fps := fps
    getSceneStart := fun id => mapGet st.sceneStartIndex id
    getSceneEnd := fun id => mapGet st.sceneEndIndex id
    getCueStart := fun id => mapGet st.cueStartIndex id
    getPrevStart := prev.bind fun p => mapGet st.sceneStartIndex p.id
    getPrevEnd := prev.bind fun p => mapGet st.sceneEndIndex p.id
    getNextStart := next.bind fun n =>
      (getAttr n "id").bind fun nextId => mapGet st.sceneStartIndex nextId }

/-- Commit a successfully resolved scene (lines 945-948). -/
def commitScene (st : ResolveState) (index : Nat) (data : SceneData) : ResolveState :=
  let st2 := { st with scenes := st.scenes.set index (some data) }
  let st3 :=
    match data.time with
    | some t =>
      match t.startSec with
      | some s => { st2 with sceneStartIndex := mapSet st2.sceneStartIndex data.id s }
      | none => st2
    | none => st2
  match data.time with
  | some t =>
    match t.endSec with
    | some e => { st3 with sceneEndIndex := mapSet st3.sceneEndIndex data.id e }
    | none => st3
  | none => st3

/-- Result of one pass over the pending set: either a thrown hard error
(which aborts the whole load) or the updated state, the new pending list and
the `progressed` flag. -/
inductive PassResult where
  | aborted (st : ResolveState) (msg : String)
  | done (st : ResolveState) (newPending : List Nat) (progressed : Bool)
deriving Repr

/-- One pass of the fixed-point loop (the `for` over `Array.from(pending)`,
lines 829-955): scenes resolving successfully are committed and removed from
pending, `MissingTimeReferenceError` keeps them pending (state mutations are
kept), any other error aborts. -/
def runPass (sceneEls : List Element) (fps : ℚ) :
    List Nat → ResolveState → List Nat → Bool → PassResult
  | [], st, keptRev, progressed => .done st keptRev.reverse progressed
  | index :: rest, st, keptRev, progressed =>
    let sceneEl := sceneEls.getD index dummyElement
    let ctx := buildCtx sceneEls fps st index
    match processScene sceneEl ctx st with
    | (st2, .ok data) =>
      runPass sceneEls fps rest (commitScene st2 index data) keptRev true
    | (st2, .error (.missingRef _)) =>
      runPass sceneEls fps rest st2 (index :: keptRev) progressed
    | (st2, .error (.hard msg)) => .aborted st2 msg

/-- Failure modes of `loadVideoFileFromXml`, message rendering below. -/
inductive ResolveFailure where
  | thrown (msg : String)
  | missingTop (ref : String)
  | unresolvedScenes (ids : List String)
  | didNotConverge
deriving DecidableEq, Repr

/-- The `Error.message` of each failure. -/
def ResolveFailure.message : ResolveFailure → String
  | .thrown m => m
  | .missingTop r => r
  | .unresolvedScenes ids =>
      "Unresolved time references for scenes: " ++ String.intercalate ", " ids
  | .didNotConverge => "Time resolution did not converge."

/-- The display name used for an unresolved scene (line 959). -/
def unresolvedName (sceneEls : List Element) (idx : Nat) : String :=
  (getAttr (sceneEls.getD idx dummyElement) "id").getD ("scene#" ++ toString idx)

/-- The `while (pending.size > 0)` loop (lines 827-966), with explicit fuel;
`none` stands for fuel exhaustion, which theorem `resolver_fuel_sufficient`
below shows cannot happen at the fuel used by `loadVideoFileFromXml`. -/
def resolveLoop (sceneEls : List Element) (fps : ℚ) :
    Nat → List Nat → ResolveState → Nat → Option (Except ResolveFailure ResolveState)
  | 0, _, _, _ => none
  | fuel + 1, pending, st, passes =>
    if pending.isEmpty then some (.ok st)
    else
      match runPass sceneEls fps pending st [] false with
      | .aborted _ msg => some (.error (.thrown msg))
      | .done st2 newPending progressed =>
        let passes2 := passes + 1
        if progressed = false then
          some (.error (.unresolvedScenes (newPending.map (unresolvedName sceneEls))))
        else if passes2 > sceneEls.length + 2 then
          some (.error .didNotConverge)
        else
          resolveLoop sceneEls fps fuel newPending st2 passes2

/-- Lift an evaluation error escaping to the top level (duration / poster /
voiceover attributes) into a load failure. -/
def liftEvalErr : EvalErr → ResolveFailure
  | .missingRef r => .missingTop r
  | .hard m => .thrown m

/-- The `voiceover` scan after the loop (lines 968-985); the last voiceover
element wins. -/
def scanVoiceover (children : List Element) (baseCtx : TimeEvalContext)
    (acc : Option VoiceoverSpec) : Except ResolveFailure (Option VoiceoverSpec) :=
  match children with
  | [] => .ok acc
  | el :: rest =>
    if el.tag = "voiceover" then
      let leadIn : Except EvalErr (Option ℚ) :=
        match getAttr el "leadInSeconds" with
        | some s => (parseTimeValue s baseCtx).map some
        | none => .ok none
      match leadIn with
      | .error e => .error (liftEvalErr e)
      | .ok leadInSeconds =>
        let trimEnd : Except EvalErr (Option ℚ) :=
          match getAttr el "trimEndSeconds" with
          | some s => (parseTimeValue s baseCtx).map some
          | none => .ok none
        match trimEnd with
        | .error e => .error (liftEvalErr e)
        | .ok trimEndSeconds =>
          scanVoiceover rest baseCtx (some
            { provider := getAttr el "provider"
              voice := getAttr el "voice"
              model := getAttr el "model"
              format := getAttr el "format"
              sampleRateHz := parseNumber (getAttr el "sampleRateHz")
              seed := parseNumber (getAttr el "seed")
              leadInSeconds := leadInSeconds
              trimEndSeconds := trimEndSeconds })
    else scanVoiceover rest baseCtx acc

/-- The accepted root tags. -/
def allowedRoots : List String := ["videoml", "video-ml", "vml"]

/-- The context with no scene / cue references available (line 803). -/
def baseCtxOf (fps : ℚ) : TimeEvalContext :=
  { fps := fps
    getSceneStart := fun _ => none
    getSceneEnd := fun _ => none
    getCueStart := fun _ => none
    getPrevStart := none
    getPrevEnd := none
    getNextStart := none }

/-- `loadVideoFileFromXml` from src/xml.ts, on an already-parsed element
tree.  The loop fuel is `n + 1` where `n` is the number of scene elements;
`resolver_fuel_sufficient` below shows this never runs out (the `.error
.didNotConverge` default for the `none` case is therefore dead code). -/
def loadVideoFileFromXml (root : Element) : Except ResolveFailure VideoSpec :=
  if ¬ allowedRoots.contains root.tag then
    .error (.thrown "XML root must be <vml>, <videoml>, or <video-ml>.")
  else
    let fps := (parseNumber (some ((getAttr root "fps").getD ""))).getD 30
    let width := (parseNumber (some ((getAttr root "width").getD ""))).getD 1280
    let height := (parseNumber (some ((getAttr root "height").getD ""))).getD 720
    match getAttr root "id" with
    | none => .error (.thrown "vml requires id.")
    | some id =>
      if id = "" then .error (.thrown "vml requires id.")
      else
      let title := getAttr root "title"
      let baseCtx := baseCtxOf fps
      let durationE : Except EvalErr (Option ℚ) :=
        match getAttr root "duration" with
        | some s => (parseTimeValue s baseCtx).map some
        | none => .ok none
      match durationE with
      | .error e => .error (liftEvalErr e)
      | .ok durationSeconds =>
        let posterE : Except EvalErr (Option ℚ) :=
          match getAttr root "poster" with
          | some s => (parseTimeValue s baseCtx).map some
          | none => .ok none
        match posterE with
        | .error e => .error (liftEvalErr e)
        | .ok posterTime =>
          let sceneEls := root.children.filter fun child => child.tag = "scene"
          let n := sceneEls.length
          let st0 : ResolveState := ⟨[], [], [], [], List.replicate n none⟩
          match resolveLoop sceneEls fps (n + 1) (List.range n) st0 0 with
          | none => .error .didNotConverge
          | some (.error e) => .error e
          | some (.ok stF) =>
            match scanVoiceover root.children baseCtx none with
            | .error e => .error e
            | .ok voiceover =>
              let scenes := stF.scenes.filterMap fun x => x
              if scenes.isEmpty then
                .error (.thrown "vml requires at least one scene.")
              else
                .ok ⟨[{ id := id
                        title := title
                        meta := ⟨fps, width, height, durationSeconds⟩
                        posterTime := posterTime
                        voiceover := voiceover
                        scenes := scenes }]⟩

/-! ## Runtime (src/runtime.ts) -/

/-- The core of the (double-escaped) `parseTimeSeconds` regexes:
`[0-9]* \\ .? [0-9]+` — digits, a literal backslash, an optional arbitrary
character, then one or more digits, anchored on both sides.  Greedy matching
with backtracking reduces to the following check. -/
def brokenCoreMatch (cs : List Char) : Bool :=
  let rest := cs.dropWhile fun c => isDig c
  match rest with
  | '\\' :: r2 =>
    match r2 with
    | [] => false
    | _ :: r3 => (r3 ≠ [] && r3.all fun c => isDig c) || (r2.all fun c => isDig c)
  | _ => false

/-- Strip `suf` from the end of `cs`. -/
def stripSuffix (cs suf : List Char) : Option (List Char) :=
  if cs.length ≥ suf.length && cs.drop (cs.length - suf.length) = suf then
    some (cs.take (cs.length - suf.length))
  else none

/-- The `f` and final branches of `parseTimeSeconds`.  The three unit
regexes are double-escaped in the source and only match strings containing a
literal backslash (on which `parseFloat` of the captured group would yield
`NaN`, modelled `none`); every backslash-free input falls through to the
plain `Number.parseFloat` with its `isFinite` guard. -/
def parseTimeSecondsFallback (cs : List Char) (fps : ℚ) : Option ℚ :=
  match stripSuffix cs ['f'] with
  | some core =>
    if brokenCoreMatch core then (jsParseFloat (String.mk core)).map fun q => q / fps
    else jsParseFloat (String.mk cs)
  | none => jsParseFloat (String.mk cs)

/-- The `s` branch of `parseTimeSeconds`, falling through to the `f` and
final branches. -/
def parseTimeSecondsTail (cs : List Char) (fps : ℚ) : Option ℚ :=
  match stripSuffix cs ['s'] with
  | some core =>
    if brokenCoreMatch core then jsParseFloat (String.mk core)
    else parseTimeSecondsFallback cs fps
  | none => parseTimeSecondsFallback cs fps

/-- `parseTimeSeconds` from src/runtime.ts (entry: the `ms` branch). -/
def parseTimeSeconds (raw : Option String) (fps : ℚ) : Option ℚ :=
  match raw with
  | none => none
  | some r =>
    let value := jsTrim r
    if value = "" then none
    else
      let cs := value.data
      match stripSuffix cs ['m', 's'] with
      | some core =>
        if brokenCoreMatch core then (jsParseFloat (String.mk core)).map fun q => q / 1000
        else parseTimeSecondsTail cs fps
      | none => parseTimeSecondsTail cs fps

/-- `collectTimeScale` from src/runtime.ts, over the chain of the element
and its ancestors (innermost first; the walk past the markup root into the
host document is outside the modelled tree and carries no attributes). -/
def collectTimeScale (chain : List Element) : ℚ :=
  let step := fun (scale : ℚ) (cur : Element) =>
    match (getAttr cur "timeScale").orElse fun _ => getAttr cur "time-scale" with
    | some raw =>
      match jsParseFloat raw with
      | some parsed => if 0 < parsed then scale * parsed else scale
      | none => scale
    | none => scale
  chain.foldl step 1

mutual

/-- `elementDuration` from src/runtime.ts. -/
def elementDuration (el : Element) (fps : ℚ) : Option ℚ :=
  match el with
  | .mk _ _ kids _ =>
    match parseTimeSeconds (getAttr el "duration") fps with
    | some d => some d
    | none =>
      let startAttr := (parseTimeSeconds (getAttr el "start") fps).getD 0
      match parseTimeSeconds (getAttr el "end") fps with
      | some endAttr => some (max 0 (endAttr - startAttr))
      | none =>
        if kids.isEmpty then none
        else if el.tag = "sequence" then
          -- in the source `maxEnd` is initialised to 0 and never null
          elementDurationSeq kids fps 0 0
        else
          -- the stack / layer / scene branch and the default branch coincide
          elementDurationStack kids fps none
termination_by structural el

/-- The `sequence` child fold of `elementDuration`. -/
def elementDurationSeq (children : List Element) (fps : ℚ) (cursor maxEnd : ℚ) :
    Option ℚ :=
  match children with
  | [] => some maxEnd
  | child :: rest =>
    let childStart := parseTimeSeconds (getAttr child "start") fps
    let localStart := childStart.getD cursor
    match elementDuration child fps with
    | none => none
    | some childDur =>
      let localEnd := localStart + childDur
      let maxEnd2 := if maxEnd < localEnd then localEnd else maxEnd
      elementDurationSeq rest fps localEnd maxEnd2
termination_by structural children

/-- The `stack` / `layer` / `scene` / default child fold of
`elementDuration`. -/
def elementDurationStack (children : List Element) (fps : ℚ) (maxDur : Option ℚ) :
    Option ℚ :=
  match children with
  | [] => maxDur
  | child :: rest =>
    let childStart := (parseTimeSeconds (getAttr child "start") fps).getD 0
    match elementDuration child fps with
    | none => none
    | some childDur =>
      let localEnd := childStart + childDur
      let maxDur2 :=
        match maxDur with
        | none => some localEnd
        | some m => if m < localEnd then some localEnd else some m
      elementDurationStack rest fps maxDur2
termination_by structural children

end

mutual

/-- Preorder walk collecting, for every element of a child list, the element
together with its ancestor chain (innermost first). -/
def descendantsGo (children : List Element) (chain : List Element) :
    List (Element × List Element) :=
  match children with
  | [] => []
  | child :: rest =>
    (child, chain) ::
      (descendantsInto child chain ++ descendantsGo rest chain)
termination_by structural children

/-- Enter one element: walk its children with the extended chain. -/
def descendantsInto (el : Element) (chain : List Element) :
    List (Element × List Element) :=
  match el with
  | .mk _ _ kids _ => descendantsGo kids (el :: chain)
termination_by structural el

end

/-- Strict descendants of an element in document (preorder) order, each with
its ancestor chain (innermost first); used to model `querySelectorAll`. -/
def descendantsWithAnc (el : Element) (anc : List Element) :
    List (Element × List Element) :=
  descendantsGo el.children (el :: anc)

/-- `root.querySelectorAll(tag)` in document order (descendants only, which
is what both call sites in `computeSceneTimings` rely on). -/
def querySelectorAll (root : Element) (tag : String) : List (Element × List Element) :=
  (descendantsWithAnc root []).filter fun p => p.1.tag = tag

/-- A scene timing row of `computeSceneTimings`. -/
structure SceneTiming where
  id : String
  start : ℚ
  endTime : Option ℚ
  element : Element

/-- A cue timing row of `computeSceneTimings`. -/
structure CueTimingR where
  id : String
  start : ℚ
  endTime : Option ℚ
  element : Element

/-- The per-scene cue loop of `computeSceneTimings` (lines 349-374). -/
def computeCueTimings (sceneEl : Element) (fps start : ℚ) (endV : Option ℚ)
    (scale : ℚ) : List CueTimingR :=
  let step := fun (acc : List CueTimingR) (cue : Element) =>
    match getAttr cue "id" with
    | none => acc
    | some cueId =>
      let cueStartAttr := parseTimeSeconds (getAttr cue "start") fps
      let cueDurationAttr := parseTimeSeconds (getAttr cue "duration") fps
      let cueEndAttr := parseTimeSeconds (getAttr cue "end") fps
      let cueStart0 : Option ℚ :=
        match cueStartAttr with
        | some s => some s
        | none =>
          match cueEndAttr, endV with
          | some ce, some _ => some (max start (ce - start))
          | _, _ => none
      match cueStart0 with
      | none => acc
      | some cs0 =>
        let cueStart := start + cs0 * scale
        let cueEnd : Option ℚ :=
          match cueDurationAttr with
          | some d => some (cueStart + d * scale)
          | none =>
            match cueEndAttr with
            | some ce => some (start + ce * scale)
            | none => none
        acc ++ [⟨cueId, cueStart, cueEnd, cue⟩]
  ((querySelectorAll sceneEl "cue").map Prod.fst).foldl step []

/-- One iteration of the scene loop of `computeSceneTimings` (lines
337-374): id, start (explicit attribute or the running cursor), end (via
`elementDuration`, scaled), and the scene's cue rows. -/
def sceneTimingStep (row : Element × List Element) (fps cursor : ℚ) :
    SceneTiming × List CueTimingR :=
  let sceneEl := row.1
  let id := (getAttr sceneEl "id").getD ""
  let startAttr := parseTimeSeconds (getAttr sceneEl "start") fps
  let start := startAttr.getD cursor
  let durationAttr := elementDuration sceneEl fps
  let scale := collectTimeScale (sceneEl :: row.2)
  let endV := durationAttr.map fun d => start + d * scale
  let cues := computeCueTimings sceneEl fps start endV scale
  (⟨id, start, endV, sceneEl⟩, cues)

/-- The scene fold of `computeSceneTimings` (lines 336-375): `cursor` chains
a missing `start` attribute to the end of the last scene that had a resolved
end (`if (end != null) cursor = end`). -/
def sceneTimingFold (sceneRows : List (Element × List Element)) (fps : ℚ)
    (cursor : ℚ) : List (SceneTiming × List CueTimingR) :=
  match sceneRows with
  | [] => []
  | row :: rest =>
    let step := sceneTimingStep row fps cursor
    step :: sceneTimingFold rest fps ((step.1.endTime).getD cursor)

/-- The result record of `computeSceneTimings`. -/
structure SceneTimingsResult where
  scenes : List SceneTiming
  cues : List CueTimingR
  duration : Option ℚ
  fps : ℚ

/-- `computeSceneTimings` from src/runtime.ts.  The xml string and the live
root element describe the same document at mount time, so both are the one
modelled tree; a resolution failure in `executeVomXml` propagates. -/
def computeSceneTimings (root : Element) : Except ResolveFailure SceneTimingsResult :=
  match loadVideoFileFromXml root with
  | .error e => .error e
  | .ok videoSpec =>
    let fps :=
      match videoSpec.compositions with
      | c :: _ => c.meta.fps
      | [] => 30
    let rows := sceneTimingFold (querySelectorAll root "scene") fps 0
    let scenes := rows.map Prod.fst
    let cues := rows.foldl (fun acc r => acc ++ r.2) []
    let dstep := fun (acc : Option ℚ) (s : SceneTiming) =>
      match s.endTime, acc with
      | some e, none => some e
      | some e, some d => if d < e then some e else some d
      | none, d => d
    let duration := scenes.foldl dstep (none : Option ℚ)
    .ok ⟨scenes, cues, duration, fps⟩

/-! ## The clock (createTimeline's tick, src/runtime.ts lines 54-115) -/

inductive ClockMode where
  | bounded | live
deriving DecidableEq, Repr

/-- The mutable state of one timeline clock. -/
structure ClockState where
  running : Bool
  lastTs : Option ℚ
  time : ℚ
  frame : ℤ
deriving DecidableEq, Repr

/-- One invocation of `tick(ts)` (`ts` in milliseconds): returns the new
clock state and whether subscribers were notified (`false` exactly when the
guard `if (!running) return` fires, in which case no further animation frame
is requested either). -/
def clockTick (fps : ℚ) (clockMode : ClockMode) (loop : Bool)
    (duration : Option ℚ) (st : ClockState) (ts : ℚ) : ClockState × Bool :=
  if st.running = false then (st, false)
  else
    let lastTs := st.lastTs.getD ts
    let delta := (ts - lastTs) / 1000
    let nextTime := st.time + delta
    let step : ℚ × Bool :=
      match clockMode, duration with
      | .bounded, some d =>
        if nextTime ≥ d then
          if loop then (if 0 < d then jsMod nextTime d else 0, true)
          else (d, false)
        else (nextTime, true)
      | _, _ => (nextTime, true)
    ({ running := step.2, lastTs := some ts, time := step.1,
       frame := ⌊step.1 * fps⌋ }, true)

/-! ## handleTick (src/runtime.ts lines 494-565) -/

/-- A timed sub-element row (`computeTimedElements` output). -/
structure TimedElement where
  element : Element
  start : ℚ
  endTime : ℚ

/-- The half-open visibility test of the timed-element loop (line 521):
`timeSec >= item.start && timeSec < item.end`. -/
def timedElementVisible (item : TimedElement) (timeSec : ℚ) : Bool :=
  decide (item.start ≤ timeSec) && decide (timeSec < item.endTime)

/-- The events dispatched during one `handleTick`. -/
inductive RtEvent where
  | tick (frame : ℤ) (time : ℚ)
  | cueStart (cueId : String)
  | cueEnd (cueId : String)
  | sceneStart (sceneId : String)
  | sceneEnd (sceneId : String)
deriving DecidableEq, Repr

/-- The scene loop deriving the active scene id (lines 500-516): iteration
order, last matching scene wins; a missing scene end falls back to the next
scene's start. -/
def deriveActiveSceneId (scenes : List SceneTiming) (timeSec : ℚ)
    (acc : Option String) : Option String :=
  match scenes with
  | [] => acc
  | s :: rest =>
    let endB : Option ℚ :=
      match s.endTime with
      | some e => some e
      | none => (rest.head?).map fun n => n.start
    let isActive : Bool :=
      decide (s.start ≤ timeSec) &&
        (match endB with
         | none => true
         | some e => decide (timeSec < e))
    deriveActiveSceneId rest timeSec (if isActive then some s.id else acc)

/-- The cue loop of `handleTick` (lines 541-552): edge-triggered cue
start/end events and the active-cue id set. -/
def cueTickGo (cues : List CueTimingR) (timeSec : ℚ) (activeCues : List String)
    (evs : List RtEvent) : List String × List RtEvent :=
  match cues with
  | [] => (activeCues, evs)
  | c :: rest =>
    let isActive : Bool :=
      decide (c.start ≤ timeSec) &&
        (match c.endTime with
         | none => true
         | some e => decide (timeSec < e))
    let wasActive := activeCues.contains c.id
    if isActive && !wasActive then
      cueTickGo rest timeSec (activeCues ++ [c.id]) (evs ++ [.cueStart c.id])
    else if !isActive && wasActive then
      cueTickGo rest timeSec (activeCues.filter fun x => x ≠ c.id) (evs ++ [.cueEnd c.id])
    else cueTickGo rest timeSec activeCues evs

/-- The scheduler state carried between ticks. -/
structure SchedState where
  lastActiveSceneId : Option String
  activeCues : List String
deriving DecidableEq, Repr

/-- One `handleTick(timeSec)`: returns the new state, the DOM events
dispatched in order, and the visibility decision taken for each timed
element of the active scene. -/
def handleTick (scenes : List SceneTiming) (cues : List CueTimingR)
    (timedByScene : String → List TimedElement) (st : SchedState)
    (timeSec fps : ℚ) : SchedState × List RtEvent × List (TimedElement × Bool) :=
  let frame : ℤ := ⌊timeSec * fps⌋
  let activeSceneId := deriveActiveSceneId scenes timeSec none
  let timedVis :=
    match activeSceneId with
    | some sid => (timedByScene sid).map fun item => (item, timedElementVisible item timeSec)
    | none => []
  let (activeCues2, cueEvs) := cueTickGo cues timeSec st.activeCues []
  let scEvs :=
    if activeSceneId ≠ st.lastActiveSceneId then
      (match st.lastActiveSceneId with
       | some a => [RtEvent.sceneEnd a]
       | none => []) ++
      (match activeSceneId with
       | some b => [RtEvent.sceneStart b]
       | none => [])
    else []
  (⟨activeSceneId, activeCues2⟩, RtEvent.tick frame timeSec :: cueEvs ++ scEvs, timedVis)

/-! ## The structural patch protocol (applyVomPatchesInBrowser, src/xml.ts
lines 70-229).  `nodeXml` fragments arrive already parsed (`DOMParser` is an
external collaborator); the serialisation of the patched document back to a
string is likewise external, so the model returns the patched tree. -/

inductive VomPatch where
  | appendNode (parentId : String) (node : Element) (index : Option Nat)
  | removeNode (nodeId : String)
  | setAttr (nodeId : String) (name : String) (value : Option String)
  | setText (nodeId : String) (textContent : String)
  | replaceSubtree (nodeId : String) (node : Element)
  | sealScene (sceneId : String)

mutual

/-- `findById` (first match of the preorder `walk`), returning the matched
element together with its ancestor chain (innermost first, as walked by
`findSceneAncestor`). -/
def chainToFirstId (el : Element) (id : String) (anc : List Element) :
    Option (Element × List Element) :=
  match el with
  | .mk _ _ kids _ =>
    if getAttr el "id" = some id then some (el, anc)
    else chainChildren kids id (el :: anc)
termination_by structural el

/-- Worker of `chainToFirstId` over a child list. -/
def chainChildren (children : List Element) (id : String) (anc : List Element) :
    Option (Element × List Element) :=
  match children with
  | [] => none
  | child :: rest =>
    match chainToFirstId child id anc with
    | some r => some r
    | none => chainChildren rest id anc
termination_by structural children

end

mutual

/-- Apply `f` to the first preorder node carrying `id`; `f` returning `none`
deletes the node.  The outer option is `none` when no node matches. -/
def editFirstById (el : Element) (id : String) (f : Element → Option Element) :
    Option (Option Element) :=
  match el with
  | .mk t a kids x =>
    if getAttr el "id" = some id then some (f el)
    else
      match editChildren kids id f with
      | none => none
      | some newChildren => some (some (.mk t a newChildren x))
termination_by structural el

/-- Worker of `editFirstById` over a child list. -/
def editChildren (children : List Element) (id : String)
    (f : Element → Option Element) : Option (List Element) :=
  match children with
  | [] => none
  | child :: rest =>
    match editFirstById child id f with
    | some none => some rest
    | some (some child2) => some (child2 :: rest)
    | none =>
      match editChildren rest id f with
      | some rest2 => some (child :: rest2)
      | none => none
termination_by structural children

end

/-- `setAttribute` (replace in place, else append) / `removeAttribute`. -/
def domSetAttr (el : Element) (name : String) (value : Option String) : Element :=
  match el with
  | .mk t a cs x =>
    match value with
    | none => .mk t (a.filter fun p => p.1 ≠ name) cs x
    | some v =>
      if a.any fun p => p.1 = name then
        .mk t (a.map fun p => if p.1 = name then (name, v) else p) cs x
      else .mk t (a ++ [(name, v)]) cs x

/-- `appendChild` / `insertBefore(children[index])` as used by the
`appendNode` patch: an out-of-range or missing index appends. -/
def domInsertChild (el : Element) (node : Element) (index : Option Nat) : Element :=
  match el with
  | .mk t a cs x =>
    match index with
    | none => .mk t a (cs ++ [node]) x
    | some i =>
      if i ≥ cs.length then .mk t a (cs ++ [node]) x
      else .mk t a (cs.take i ++ node :: cs.drop i) x

/-- Assignment to `textContent`: replaces the node's children with the given
text. -/
def domSetText (el : Element) (textContent : String) : Element :=
  match el with
  | .mk t a _ _ => .mk t a [] textContent

/-- `findSceneAncestor`: the walk starts at the node itself and climbs. -/
def findSceneAncestor (target : Element) (anc : List Element) : Option Element :=
  (target :: anc).find? fun e => e.tag = "scene"

/-- `assertNotSealed` (lines 140-149): only enforced when requested; the
nearest scene ancestor is consulted, `sealed` shadows `data-sealed`. -/
def assertNotSealed (enforceSealed : Bool) (target : Element) (anc : List Element) :
    Except String Unit :=
  if enforceSealed = false then .ok ()
  else
    match findSceneAncestor target anc with
    | none => .ok ()
    | some scene =>
      let sealed := (getAttr scene "sealed").orElse fun _ => getAttr scene "data-sealed"
      if sealed = some "true" then
        .error ("Cannot patch sealed scene \"" ++ ((getAttr scene "id").getD "unknown") ++ "\".")
      else .ok ()

/-- One iteration of the patch loop. -/
def applyOnePatch (doc : Element) (patch : VomPatch) (enforceSealed : Bool) :
    Except String Element :=
  match patch with
  | .appendNode parentId node index =>
    match chainToFirstId doc parentId [] with
    | none => .error ("appendNode: parent \"" ++ parentId ++ "\" not found.")
    | some (parent, anc) =>
      match assertNotSealed enforceSealed parent anc with
      | .error e => .error e
      | .ok _ =>
        match editFirstById doc parentId (fun p => some (domInsertChild p node index)) with
        | some (some doc2) => .ok doc2
        | _ => .error ("appendNode: parent \"" ++ parentId ++ "\" not found.")
  | .removeNode nodeId =>
    match chainToFirstId doc nodeId [] with
    | none => .error ("removeNode: node \"" ++ nodeId ++ "\" not found.")
    | some (target, anc) =>
      if anc.isEmpty then .error ("removeNode: node \"" ++ nodeId ++ "\" not found.")
      else
        match assertNotSealed enforceSealed target anc with
        | .error e => .error e
        | .ok _ =>
          match editFirstById doc nodeId (fun _ => none) with
          | some (some doc2) => .ok doc2
          | _ => .error ("removeNode: node \"" ++ nodeId ++ "\" not found.")
  | .setAttr nodeId name value =>
    match chainToFirstId doc nodeId [] with
    | none => .error ("setAttr: node \"" ++ nodeId ++ "\" not found.")
    | some (target, anc) =>
      match assertNotSealed enforceSealed target anc with
      | .error e => .error e
      | .ok _ =>
        match editFirstById doc nodeId (fun p => some (domSetAttr p name value)) with
        | some (some doc2) => .ok doc2
        | _ => .error ("setAttr: node \"" ++ nodeId ++ "\" not found.")
  | .setText nodeId textContent =>
    match chainToFirstId doc nodeId [] with
    | none => .error ("setText: node \"" ++ nodeId ++ "\" not found.")
    | some (target, anc) =>
      match assertNotSealed enforceSealed target anc with
      | .error e => .error e
      | .ok _ =>
        match editFirstById doc nodeId (fun p => some (domSetText p textContent)) with
        | some (some doc2) => .ok doc2
        | _ => .error ("setText: node \"" ++ nodeId ++ "\" not found.")
  | .replaceSubtree nodeId node =>
    match chainToFirstId doc nodeId [] with
    | none => .error ("replaceSubtree: node \"" ++ nodeId ++ "\" not found.")
    | some (target, anc) =>
      if anc.isEmpty then .error ("replaceSubtree: node \"" ++ nodeId ++ "\" not found.")
      else
        match assertNotSealed enforceSealed target anc with
        | .error e => .error e
        | .ok _ =>
          match editFirstById doc nodeId (fun _ => some node) with
          | some (some doc2) => .ok doc2
          | _ => .error ("replaceSubtree: node \"" ++ nodeId ++ "\" not found.")
  | .sealScene sceneId =>
    match chainToFirstId doc sceneId [] with
    | none => .error ("sealScene: scene \"" ++ sceneId ++ "\" not found.")
    | some (scene, _) =>
      if scene.tag ≠ "scene" then
        .error ("sealScene: scene \"" ++ sceneId ++ "\" not found.")
      else
        match editFirstById doc sceneId (fun p => some (domSetAttr p "sealed" (some "true"))) with
        | some (some doc2) => .ok doc2
        | _ => .error ("sealScene: scene \"" ++ sceneId ++ "\" not found.")

/-- The patch loop of `applyVomPatchesInBrowser`: the first failing patch
aborts the batch (the thrown error propagates to the caller; patches already
applied are not rolled back). -/
def applyPatchList (doc : Element) (patches : List VomPatch) (enforceSealed : Bool) :
    Except String Element :=
  match patches with
  | [] => .ok doc
  | p :: rest =>
    match applyOnePatch doc p enforceSealed with
    | .error e => .error e
    | .ok doc2 => applyPatchList doc2 rest enforceSealed

/-- `applyVomPatchesInBrowser` from src/xml.ts. -/
def applyVomPatchesInBrowser (root : Element) (patches : List VomPatch)
    (enforceSealed : Bool) : Except String Element :=
  if ¬ allowedRoots.contains root.tag then
    .error "XML root must be <vml>, <videoml>, or <video-ml>."
  else applyPatchList root patches enforceSealed

/-! ## Derived observations used by the theorems -/

/-- The ids of the cue elements that are direct children of a scene
element. -/
def sceneCueIds (el : Element) : List String :=
  (el.children.filter fun c => c.tag = "cue").filterMap fun c => getAttr c "id"

/-- The cue ids of all top-level scene elements, in document order. -/
def docCueIds (root : Element) : List String :=
  ((root.children.filter fun c => c.tag = "scene").map sceneCueIds).flatten

/-- How many cue elements anywhere in the document carry the given id. -/
def countCueElementsWithId (root : Element) (id : String) : Nat :=
  (((descendantsWithAnc root []).map Prod.fst).filter fun e =>
    e.tag = "cue" && getAttr e "id" = some id).length

/-- Whether the first element carrying `id` sits inside (or is) a scene
element marked sealed, at any ancestry depth. -/
def insideSealedScene (doc : Element) (id : String) : Bool :=
  match chainToFirstId doc id [] with
  | none => false
  | some (target, anc) =>
    (target :: anc).any fun e =>
      e.tag = "scene" &&
        ((getAttr e "sealed").orElse fun _ => getAttr e "data-sealed") = some "true"

/-- The id of the structural-patch target (`sealScene` is not a structural
patch). -/
def structuralTargetId : VomPatch → Option String
  | .appendNode parentId _ _ => some parentId
  | .removeNode nodeId => some nodeId
  | .setAttr nodeId _ _ => some nodeId
  | .setText nodeId _ => some nodeId
  | .replaceSubtree nodeId _ => some nodeId
  | .sealScene _ => none

/-- Whether the patch requires its target to have a parent node. -/
def patchNeedsParent : VomPatch → Bool
  | .removeNode _ => true
  | .replaceSubtree _ _ => true
  | _ => false

/-- The initial resolver state for `n` scenes. -/
def initState (n : Nat) : ResolveState := ⟨[], [], [], [], List.replicate n none⟩

/-! ## Concrete documents for the claims -/

/-- Fully backward references: each scene starts at the previous end. -/
def exDocBackward : Element :=
  .mk "vml" [("id", "v")]
    [.mk "scene" [("id", "s1"), ("start", "0s"), ("duration", "2s")] [] "",
     .mk "scene" [("id", "s2"), ("start", "scene(s1).end"), ("duration", "3s")] [] ""] ""

/-- A fully forward reference: the first scene derives its start from the
later scene. -/
def exDocForward : Element :=
  .mk "vml" [("id", "v")]
    [.mk "scene" [("id", "s1"), ("start", "scene(s2).start - 5s"), ("duration", "5s")] [] "",
     .mk "scene" [("id", "s2"), ("start", "5s"), ("duration", "2s")] [] ""] ""

/-- Mixed forward and backward references over three scenes. -/
def exDocMixed : Element :=
  .mk "vml" [("id", "v")]
    [.mk "scene" [("id", "m1"), ("start", "scene(m3).end"), ("duration", "1s")] [] "",
     .mk "scene" [("id", "m2"), ("start", "0s"), ("duration", "2s")] [] "",
     .mk "scene" [("id", "m3"), ("start", "scene(m2).end"), ("duration", "2s")] [] ""] ""

/-- Two direct-child cues with the same id in different scenes. -/
def exDocDupCue : Element :=
  .mk "vml" [("id", "v")]
    [.mk "scene" [("id", "s1"), ("start", "0s")] [.mk "cue" [("id", "c")] [] ""] "",
     .mk "scene" [("id", "s2"), ("start", "1s")] [.mk "cue" [("id", "c")] [] ""] ""] ""

/-- A duplicate cue id where the second cue is nested inside a layer: the
layer-children loop skips `cue` tags, so the duplicate goes unnoticed. -/
def exDocNestedDupCue : Element :=
  .mk "vml" [("id", "v")]
    [.mk "scene" [("id", "s1"), ("start", "0s")]
      [.mk "cue" [("id", "c")] [] "",
       .mk "layer" [("id", "l")] [.mk "cue" [("id", "c")] [] ""] ""] ""] ""

/-- A scene whose cue resolves and registers, followed by a component whose
timing references the not-yet-resolved second scene: the first pass registers
cue `c` and then aborts; the retry hits the duplicate-id check. -/
def exDocPoisoned : Element :=
  .mk "vml" [("id", "v")]
    [.mk "scene" [("id", "s1"), ("start", "0s")]
      [.mk "cue" [("id", "c"), ("start", "0s")] [] "",
       .mk "box" [("start", "scene(s2)")] [] ""] "",
     .mk "scene" [("id", "s2"), ("start", "10s")] [] ""] ""

/-- Composition with `fps="25"` and a scene start of `24f`. -/
def exDocFps25 : Element :=
  .mk "vml" [("id", "v"), ("fps", "25")]
    [.mk "scene" [("id", "s1"), ("start", "24f"), ("duration", "1s")] [] ""] ""

/-- Three scenes for the runtime scheduler: explicit timing on the first,
none on the followers. -/
def exDocRuntime : Element :=
  .mk "vml" [("id", "v")]
    [.mk "scene" [("id", "s1"), ("start", "0"), ("duration", "2")] [] "",
     .mk "scene" [("id", "s2"), ("duration", "3")] [] "",
     .mk "scene" [("id", "s3")] [] ""] ""

/-- A sealed scene containing a patchable node. -/
def exDocSealed : Element :=
  .mk "vml" [("id", "v")]
    [.mk "scene" [("id", "sc"), ("sealed", "true")]
      [.mk "box" [("id", "b")] [] ""] ""] ""

/-- A sealed outer scene with an unsealed scene nested inside it; the target
node's nearest scene ancestor is the unsealed inner scene. -/
def exDocNestedScenes : Element :=
  .mk "vml" [("id", "v")]
    [.mk "scene" [("id", "outer"), ("sealed", "true")]
      [.mk "scene" [("id", "inner")]
        [.mk "box" [("id", "t")] [] ""] ""] ""] ""

/-- The multiset of direct-child cue ids of the committed scenes: scene
elements paired with their (optional) resolver results. -/
def committedOf : List (Element × Option SceneData) → Multiset String
  | [] => 0
  | (el, some _) :: rest => (sceneCueIds el : Multiset String) + committedOf rest
  | (_, none) :: rest => committedOf rest

/-- Two scenes with two distinct direct-child cue ids: a well-formed document
for the duplicate-cue-id claim. -/
def exDocTwoCues : Element :=
  .mk "vml" [("id", "v")]
    [.mk "scene" [("id", "s1"), ("start", "0s")] [.mk "cue" [("id", "c1")] [] ""] "",
     .mk "scene" [("id", "s2"), ("start", "1s")] [.mk "cue" [("id", "c2")] [] ""] ""] ""

/-- Default row used for out-of-range indexing in the statements below. -/
def defaultSceneTiming : SceneTiming := ⟨"", 0, none, dummyElement⟩

/-! ## Context and state orderings for the fixed-point argument (C1) -/

mutual

/-- Sizes of time expression trees, for strong induction. -/
def astSize : AstNode → Nat
  | .num _ _ => 1
  | .ident _ => 1
  | .unary _ v => astSize v + 1
  | .binary _ l r => astSize l + astSize r + 1
  | .call _ args => astSizeList args + 1
  | .propAccess t _ => astSize t + 1

def astSizeList : List AstNode → Nat
  | [] => 0
  | a :: rest => astSize a + astSizeList rest + 1

end

end VideoML

namespace VideoML

/-! # Helper lemmas -/

/-- Every event produced by the cue loop is a cue-start or cue-end event (or
was already in the accumulator). -/
theorem cueTickGo_events (cues : List CueTimingR) (t : ℚ) :
    ∀ act evs e, e ∈ (cueTickGo cues t act evs).2 →
      e ∈ evs ∨ (∃ i, e = RtEvent.cueStart i) ∨ (∃ i, e = RtEvent.cueEnd i) := by
  induction cues with
  | nil =>
    intro act evs e he
    exact Or.inl he
  | cons c rest ih =>
    intro act evs e he
    unfold cueTickGo at he
    by_cases h1 : ((decide (c.start ≤ t) &&
        (match c.endTime with
         | none => true
         | some e => decide (t < e))) && !(act.contains c.id)) = true
    · rw [if_pos h1] at he
      rcases ih _ _ _ he with hin | h | h
      · rcases List.mem_append.1 hin with h | h
        · exact Or.inl h
        · exact Or.inr (Or.inl ⟨c.id, List.mem_singleton.1 h⟩)
      · exact Or.inr (Or.inl h)
      · exact Or.inr (Or.inr h)
    · rw [if_neg h1] at he
      by_cases h2 : ((!(decide (c.start ≤ t) &&
          (match c.endTime with
           | none => true
           | some e => decide (t < e)))) && act.contains c.id) = true
      · rw [if_pos h2] at he
        rcases ih _ _ _ he with hin | h | h
        · rcases List.mem_append.1 hin with h | h
          · exact Or.inl h
          · exact Or.inr (Or.inr ⟨c.id, List.mem_singleton.1 h⟩)
        · exact Or.inr (Or.inl h)
        · exact Or.inr (Or.inr h)
      · rw [if_neg h2] at he
        exact ih _ _ _ he

/-! # Claim theorems -/

/-- C3: resolution-pass state is not rolled back.  In `exDocPoisoned` the
first pass over scene `s1` parses cue `c` (registering its id and start in
the shared indices) and then aborts with the unresolved-reference signal on
the `box` component referencing the still-unresolved sibling scene `s2`
(first conjunct, evaluating `processScene` at the initial state exactly as
pass one does); the retry pass over the same scene then fails hard with the
duplicate-cue-id error, which becomes the overall result of resolution
(second conjunct). -/
theorem c3_no_rollback_poisons_retry :
    (processScene (.mk "scene" [("id", "s1"), ("start", "0s")]
        [.mk "cue" [("id", "c"), ("start", "0s")] [] "",
         .mk "box" [("start", "scene(s2)")] [] ""] "")
      (buildCtx (exDocPoisoned.children.filter fun c => c.tag = "scene") 30 (initState 2) 0)
      (initState 2) =
      ({ initState 2 with cueIds := ["c"], cueStartIndex := [("c", 0)] },
        .error (.missingRef "scene(s2)"))) ∧
    loadVideoFileFromXml exDocPoisoned =
      .error (.thrown "Duplicate cue id across scenes: \"c\".") := by
  constructor
  · with_unfolding_all rfl
  · with_unfolding_all rfl

/-- C9: the unit-conversion rules themselves are as claimed (frames divide
by the context fps, milliseconds divide by 1000), but the composition's
`fps` attribute never reaches the evaluator: `parseNumber`'s regex literal
is double-escaped (`\\d` denotes a literal backslash plus `d`), so
`parseNumber "25"` is `null` and the resolver falls back to fps 30.  At
`fps="25"` the expression `24f` therefore resolves to 24/30 = 0.8 seconds,
not the claimed 0.96; `500ms` still resolves to 0.5 as claimed. -/
theorem c9_fps_attribute_never_parsed :
    parseNumber (some "25") = none ∧
    (loadVideoFileFromXml exDocFps25).map (fun s => s.compositions.map fun c => c.meta.fps) =
      .ok [30] ∧
    (loadVideoFileFromXml exDocFps25).map
        (fun s => s.compositions.map fun c => c.scenes.map fun sc => sc.time) =
      .ok [[some ⟨some (4/5), some (9/5)⟩]] ∧
    evalTimeAst (.num 24 (some .f)) (baseCtxOf 25) = .ok (24/25) ∧
    evalTimeAst (.num 500 (some .ms)) (baseCtxOf 25) = .ok (1/2) ∧
    parseTimeValue "500ms" (baseCtxOf 30) = .ok (1/2) := by
  refine ⟨?_, ?_, ?_, ?_, ?_, ?_⟩ <;> with_unfolding_all rfl

/-- C7: timed sub-element visibility uses the half-open interval
`start ≤ time < end` (the test at src/runtime.ts line 521, applied by
`handleTick` to every timed element of the active scene): an element with
start 1 and end 2 is visible at every time in `[1, 2)` — in particular at
1.999 — and not visible at exactly 2. -/
theorem c7_half_open_visibility (item : TimedElement)
    (h1 : item.start = 1) (h2 : item.endTime = 2) :
    (∀ t : ℚ, 1 ≤ t → t < 2 → timedElementVisible item t = true) ∧
    timedElementVisible item (1.999 : ℚ) = true ∧
    timedElementVisible item 2 = false := by
  refine ⟨?_, ?_, ?_⟩
  · intro t hle hlt
    simp [timedElementVisible, h1, h2]
    exact ⟨hle, hlt⟩
  · simp [timedElementVisible, h1, h2]
    norm_num
  · simp [timedElementVisible, h1, h2]

/-- Witness for C7 at the concrete element with start 1 and end 2. -/
theorem c7_half_open_visibility_witness :
    timedElementVisible ⟨dummyElement, 1, 2⟩ (1.999 : ℚ) = true ∧
    timedElementVisible ⟨dummyElement, 1, 2⟩ 2 = false :=
  ⟨(c7_half_open_visibility ⟨dummyElement, 1, 2⟩ rfl rfl).2.1,
   (c7_half_open_visibility ⟨dummyElement, 1, 2⟩ rfl rfl).2.2⟩

end VideoML

namespace VideoML

/-- C6: the bounded clock.  With a non-looping bounded clock of duration
`d`, any tick whose advanced time reaches or passes `d` clamps the time to
exactly `d` and stops the clock (first conjunct); a tick on a stopped clock
notifies nobody and leaves the state untouched, so no further ticks fire
(second conjunct); with a looping bounded clock of duration 5, a tick
advancing the time from 4.5 by a delta of 1.1 (timestamps are milliseconds)
wraps to exactly 0.6 (third conjunct); a looping duration of 0 wraps to 0
(fourth conjunct). -/
theorem c6_bounded_clock (fps d : ℚ) (st : ClockState) (ts : ℚ)
    (hrun : st.running = true)
    (hreach : d ≤ st.time + (ts - st.lastTs.getD ts) / 1000) :
    clockTick fps .bounded false (some d) st ts =
      ({ running := false, lastTs := some ts, time := d, frame := ⌊d * fps⌋ }, true) ∧
    (∀ (st2 : ClockState) (ts2 : ℚ) (mode : ClockMode) (lp : Bool) (dur : Option ℚ),
      st2.running = false → clockTick fps mode lp dur st2 ts2 = (st2, false)) ∧
    (∀ l : ℚ, st.lastTs = some l → ts = l + 1100 → st.time = 4.5 →
      (clockTick fps .bounded true (some 5) st ts).1.time = 0.6) ∧
    (0 ≤ st.time + (ts - st.lastTs.getD ts) / 1000 →
      (clockTick fps .bounded true (some 0) st ts).1.time = 0) := by
  refine ⟨?_, ?_, ?_, ?_⟩
  · unfold clockTick
    rw [hrun]
    simp only [Bool.true_eq_false, if_false]
    rw [if_pos hreach]
    simp
  · intro st2 ts2 mode lp dur h2
    unfold clockTick
    rw [h2]
    simp
  · intro l hl hts htime
    unfold clockTick
    rw [hrun]
    simp only [Bool.true_eq_false, if_false]
    rw [hl, hts, htime]
    have hd : (4.5 : ℚ) + (l + 1100 - l) / 1000 = 5.6 := by ring_nf
    simp only [Option.getD_some]
    rw [hd]
    have hge : (5 : ℚ) ≤ 5.6 := by norm_num
    rw [if_pos hge]
    have h5 : (0 : ℚ) < 5 := by norm_num
    rw [if_pos h5]
    have : jsMod 5.6 5 = 0.6 := by
      unfold jsMod ratTrunc
      rw [if_pos (by norm_num : (0 : ℚ) ≤ 5.6 / 5)]
      rw [show ⌊(5.6 : ℚ) / 5⌋ = 1 from by norm_num [Int.floor_eq_iff]]
      norm_num
    simp [this]
  · intro hge0
    unfold clockTick
    rw [hrun]
    simp only [Bool.true_eq_false, if_false]
    rw [if_pos hge0]
    norm_num

/-- Witness for C6: duration 10, running clock at time 9.5 ticking with a
0.5-second delta clamps to 10 and stops; the wrap case at duration 5 from
time 4.5 with delta 1.1 gives 0.6. -/
theorem c6_bounded_clock_witness :
    clockTick 30 .bounded false (some 10) ⟨true, some 0, 9.5, 0⟩ 1000 =
      ({ running := false, lastTs := some 1000, time := 10, frame := 300 }, true) ∧
    (clockTick 30 .bounded true (some 5) ⟨true, some 1000, 4.5, 0⟩ 2100).1.time = 0.6 := by
  constructor
  · have h := (c6_bounded_clock 30 10 ⟨true, some 0, 9.5, 0⟩ 1000 rfl (by norm_num)).1
    rw [h]
    norm_num
  · exact (c6_bounded_clock 30 5 ⟨true, some 1000, 4.5, 0⟩ 2100 rfl
      (by norm_num)).2.2.1 1000 rfl (by norm_num) rfl

end VideoML

namespace VideoML

/-- C8: scene transition ordering.  Whenever the derived active scene id
differs from the previously active one, `handleTick` dispatches
`scene:end` for the old id strictly before `scene:start` for the new id,
within the same tick's event list (first conjunct); on a tick where no scene
was previously active — in particular the very first tick — no `scene:end`
is dispatched at all (second conjunct). -/
theorem c8_scene_transition_order (scenes : List SceneTiming) (cues : List CueTimingR)
    (timedByScene : String → List TimedElement) (st : SchedState) (t fps : ℚ) :
    (∀ a b, st.lastActiveSceneId = some a →
      deriveActiveSceneId scenes t none = some b →
      deriveActiveSceneId scenes t none ≠ st.lastActiveSceneId →
      ∃ pre, (handleTick scenes cues timedByScene st t fps).2.1 =
        pre ++ [RtEvent.sceneEnd a, RtEvent.sceneStart b]) ∧
    (st.lastActiveSceneId = none →
      ∀ x, RtEvent.sceneEnd x ∉ (handleTick scenes cues timedByScene st t fps).2.1) := by
  constructor
  · intro a b ha hb hne
    rcases hq : cueTickGo cues t st.activeCues [] with ⟨ac2, cueEvs⟩
    refine ⟨RtEvent.tick ⌊t * fps⌋ t :: cueEvs, ?_⟩
    rw [hb, ha] at hne
    simp only [handleTick, hq, hb, ha]
    rw [if_pos hne]
    simp
  · intro hnone x hmem
    rcases hq : cueTickGo cues t st.activeCues [] with ⟨ac2, cueEvs⟩
    simp only [handleTick, hq, hnone] at hmem
    rcases List.mem_cons.1 hmem with h | h
    · exact absurd h (by simp)
    · rcases List.mem_append.1 h with h2 | h2
      · have h2b : RtEvent.sceneEnd x ∈ (cueTickGo cues t st.activeCues []).2 := by
          rw [hq]
          exact h2
        rcases cueTickGo_events cues t st.activeCues [] _ h2b with h3 | ⟨i, h3⟩ | ⟨i, h3⟩
        · exact absurd h3 (List.not_mem_nil _)
        · exact absurd h3 (by simp)
        · exact absurd h3 (by simp)
      · by_cases hd : deriveActiveSceneId scenes t none ≠ none
        · rw [if_pos hd] at h2
          cases hderiv : deriveActiveSceneId scenes t none with
          | none => rw [hderiv] at h2; simp at h2
          | some b =>
            rw [hderiv] at h2
            simp at h2
        · rw [if_neg hd] at h2
          exact absurd h2 (List.not_mem_nil _)

/-- Witness for C8: two scenes, the first ending at 2; at time 2.1 with
scene `a` previously active the tick emits `scene:end a` immediately
followed by `scene:start b`. -/
theorem c8_scene_transition_order_witness :
    ∃ pre, (handleTick [⟨"a", 0, some 2, dummyElement⟩, ⟨"b", 2, none, dummyElement⟩]
        [] (fun _ => []) ⟨some "a", []⟩ (21/10) 30).2.1 =
      pre ++ [RtEvent.sceneEnd "a", RtEvent.sceneStart "b"] :=
  (c8_scene_transition_order [⟨"a", 0, some 2, dummyElement⟩, ⟨"b", 2, none, dummyElement⟩]
      [] (fun _ => []) ⟨some "a", []⟩ (21/10) 30).1 "a" "b" rfl
    (by with_unfolding_all rfl) (by with_unfolding_all decide)

end VideoML

namespace VideoML

/-- The scene fold produces one timing row per input row. -/
theorem sceneTimingFold_length (fps : ℚ) :
    ∀ (rows : List (Element × List Element)) (cursor : ℚ),
      (sceneTimingFold rows fps cursor).length = rows.length := by
  intro rows
  induction rows with
  | nil => intro cursor; rfl
  | cons r rest ih =>
    intro cursor
    unfold sceneTimingFold
    simp [ih]

/-- Consecutive-row behaviour of the scene fold: a row whose element carries
no `start` attribute starts at the running cursor, which is the previous
row's end whenever that end resolved. -/
theorem sceneTimingFold_consecutive (fps : ℚ) :
    ∀ (rows : List (Element × List Element)) (cursor : ℚ) (j : Nat), j < rows.length →
      getAttr (rows.getD j (dummyElement, [])).1 "start" = none →
      ((j = 0 →
        ((sceneTimingFold rows fps cursor).getD 0 (defaultSceneTiming, [])).1.start = cursor) ∧
       (∀ e, 0 < j →
        ((sceneTimingFold rows fps cursor).getD (j - 1) (defaultSceneTiming, [])).1.endTime = some e →
        ((sceneTimingFold rows fps cursor).getD j (defaultSceneTiming, [])).1.start = e)) := by
  intro rows
  induction rows with
  | nil =>
    intro cursor j hj
    exact absurd hj (by simp)
  | cons r rest ih =>
    intro cursor j hj hattr
    match j with
    | 0 =>
      refine ⟨fun _ => ?_, fun e h0 => absurd h0 (by omega)⟩
      rw [List.getD_cons_zero] at hattr
      unfold sceneTimingFold
      rw [List.getD_cons_zero]
      unfold sceneTimingStep
      simp only
      rw [hattr]
      rfl
    | 1 =>
      refine ⟨fun h => absurd h (by omega), fun e _ hend => ?_⟩
      unfold sceneTimingFold at hend ⊢
      rw [show (1 : Nat) - 1 = 0 from rfl, List.getD_cons_zero] at hend
      rw [List.getD_cons_succ]
      rw [hend]
      have hlen : 0 < rest.length := by
        simp at hj
        omega
      exact (ih e 0 hlen (by rw [List.getD_cons_succ] at hattr; exact hattr)).1 rfl
    | Nat.succ (Nat.succ k) =>
      refine ⟨fun h => absurd h (by omega), fun e _ hend => ?_⟩
      unfold sceneTimingFold at hend ⊢
      rw [show k + 1 + 1 - 1 = k + 1 from rfl, List.getD_cons_succ] at hend
      rw [List.getD_cons_succ]
      have hlen : k + 1 < rest.length := by
        simp at hj
        omega
      have hres := (ih (((sceneTimingStep r fps cursor).1.endTime).getD cursor) (k + 1) hlen
        (by rw [List.getD_cons_succ] at hattr; exact hattr)).2 e (by omega)
      rw [show k + 1 - 1 = k from rfl] at hres
      exact hres hend

end VideoML

namespace VideoML

/-- C4: a scene element without an explicit `start` attribute starts at the
previous scene row's resolved end (`computeSceneTimings`'s running cursor),
and at 0 when it is the first scene.  The second conjunct carries the
premise that the previous row's end actually resolved, which is what the
claim's phrase "the previous scene's resolved end" presupposes (when the
previous row's end is `null`, the source leaves the cursor at the last
resolved end instead). -/
theorem c4_implicit_scene_start (root : Element) (r : SceneTimingsResult)
    (h : computeSceneTimings root = .ok r) (j : Nat)
    (hj : j < (querySelectorAll root "scene").length)
    (hattr : getAttr ((querySelectorAll root "scene").getD j (dummyElement, [])).1 "start" = none) :
    (j = 0 → (r.scenes.getD 0 defaultSceneTiming).start = 0) ∧
    (∀ e, 0 < j → (r.scenes.getD (j - 1) defaultSceneTiming).endTime = some e →
      (r.scenes.getD j defaultSceneTiming).start = e) := by
  unfold computeSceneTimings at h
  cases hload : loadVideoFileFromXml root with
  | error err =>
    rw [hload] at h
    exact absurd h (by simp)
  | ok videoSpec =>
    rw [hload] at h
    simp only [Except.ok.injEq] at h
    have hscenes : r.scenes = (sceneTimingFold (querySelectorAll root "scene")
        (match videoSpec.compositions with
         | c :: _ => c.meta.fps
         | [] => 30) 0).map Prod.fst := by
      rw [← h]
    set fps := (match videoSpec.compositions with
      | c :: _ => c.meta.fps
      | [] => (30 : ℚ)) with hfps
    have hmap : ∀ k, r.scenes.getD k defaultSceneTiming =
        ((sceneTimingFold (querySelectorAll root "scene") fps 0).getD k
          (defaultSceneTiming, [])).1 := by
      intro k
      rw [hscenes]
      rw [List.getD_eq_getElem?_getD, List.getD_eq_getElem?_getD, List.getElem?_map]
      cases hk : (sceneTimingFold (querySelectorAll root "scene") fps 0)[k]? with
      | none => rfl
      | some v => rfl
    have hmain := sceneTimingFold_consecutive fps (querySelectorAll root "scene") 0 j hj hattr
    constructor
    · intro h0
      rw [hmap 0]
      exact hmain.1 h0
    · intro e hpos hend
      rw [hmap j]
      refine hmain.2 e hpos ?_
      rw [← hmap (j - 1)]
      exact hend

/-- Witness for C4 on `exDocRuntime`: the second scene has no `start`
attribute and starts at the first scene's end 2; the first scene of a
composition whose first scene lacks `start` starts at 0. -/
theorem c4_implicit_scene_start_witness :
    ∃ r, computeSceneTimings exDocRuntime = .ok r ∧
      (r.scenes.getD 0 defaultSceneTiming).endTime = some 2 ∧
      (r.scenes.getD 1 defaultSceneTiming).start = 2 := by
  have hproj : (computeSceneTimings exDocRuntime).map
      (fun r => (r.scenes.getD 0 defaultSceneTiming).endTime) = .ok (some 2) := by
    with_unfolding_all rfl
  cases hload : computeSceneTimings exDocRuntime with
  | error err =>
    rw [hload] at hproj
    exact absurd hproj (by simp [Except.map])
  | ok r =>
    rw [hload] at hproj
    simp only [Except.map, Except.ok.injEq] at hproj
    refine ⟨r, rfl, hproj, ?_⟩
    have hlen : (1 : Nat) < (querySelectorAll exDocRuntime "scene").length := by
      with_unfolding_all decide
    have hattr : getAttr ((querySelectorAll exDocRuntime "scene").getD 1
        (dummyElement, [])).1 "start" = none := by
      with_unfolding_all rfl
    exact (c4_implicit_scene_start exDocRuntime r hload 1 hlen hattr).2 2
      (by norm_num) hproj

end VideoML

namespace VideoML

/-- Bookkeeping facts about one pass: the new pending list never grows; a
pass reporting no progress kept the pending list exactly as it was; a pass
that turned the progress flag on removed at least one scene. -/
theorem runPass_pending (els : List Element) (fps : ℚ) :
    ∀ (toProcess : List Nat) (st : ResolveState) (keptRev : List Nat) (prog : Bool)
      (st' : ResolveState) (np : List Nat) (prog' : Bool),
      runPass els fps toProcess st keptRev prog = .done st' np prog' →
      np.length ≤ keptRev.length + toProcess.length ∧
      (prog' = false → np = keptRev.reverse ++ toProcess ∧ prog = false) ∧
      (prog = false → prog' = true → np.length < keptRev.length + toProcess.length) := by
  intro toProcess
  induction toProcess with
  | nil =>
    intro st keptRev prog st' np prog' h
    unfold runPass at h
    simp only [PassResult.done.injEq] at h
    obtain ⟨-, hnp, hprog⟩ := h
    refine ⟨?_, ?_, ?_⟩
    · rw [← hnp]
      simp
    · intro h0
      rw [← hnp]
      simp
      rw [hprog]
      exact h0
    · intro h1 h2
      rw [← hprog] at h2
      rw [h2] at h1
      exact absurd h1 (by simp)
  | cons i rest ih =>
    intro st keptRev prog st' np prog' h
    unfold runPass at h
    simp only at h
    rcases hp : processScene (els.getD i dummyElement) (buildCtx els fps st i) st with
      ⟨st2, res⟩
    rw [hp] at h
    cases res with
    | ok data =>
      have hih := ih (commitScene st2 i data) keptRev true st' np prog' h
      have h1 := hih.1
      refine ⟨?_, ?_, ?_⟩
      · simp only [List.length_cons]
        omega
      · intro h0
        obtain ⟨-, hcontra⟩ := hih.2.1 h0
        exact absurd hcontra (by simp)
      · intro _ _
        simp only [List.length_cons]
        omega
    | error e =>
      cases e with
      | missingRef ref =>
        have hih := ih st2 (i :: keptRev) prog st' np prog' h
        have h1 := hih.1
        simp only [List.length_cons] at h1
        refine ⟨?_, ?_, ?_⟩
        · simp only [List.length_cons]
          omega
        · intro h0
          obtain ⟨hnp, hprog⟩ := hih.2.1 h0
          refine ⟨?_, hprog⟩
          rw [hnp]
          simp
        · intro ha hb
          have h3 := hih.2.2 ha hb
          simp only [List.length_cons] at h3 ⊢
          omega
      | hard msg => simp at h

/-- C5: the fixed-point loop always terminates — fuel exceeding the pending
count is never exhausted — and its result is exactly one of: success
(pending emptied), the hard unresolved-references failure naming the still
pending scenes (a full pass without progress), or the distinct
did-not-converge failure from the pass-count bound `sceneCount + 2`.  The
fourth disjunct covers a structural error thrown while processing a single
scene (duplicate cue id, missing scene id, malformed expression), which
aborts resolution through the loop rather than being an outcome of the
loop's own termination logic. -/
theorem c5_loop_trichotomy (els : List Element) (fps : ℚ) :
    ∀ (fuel : Nat) (pending : List Nat) (st : ResolveState) (passes : Nat),
      pending.length < fuel →
      (∃ stF, resolveLoop els fps fuel pending st passes = some (.ok stF)) ∨
      (∃ np : List Nat, resolveLoop els fps fuel pending st passes =
        some (.error (.unresolvedScenes (np.map (unresolvedName els))))) ∨
      (resolveLoop els fps fuel pending st passes = some (.error .didNotConverge)) ∨
      (∃ msg, resolveLoop els fps fuel pending st passes = some (.error (.thrown msg))) := by
  intro fuel
  induction fuel with
  | zero =>
    intro pending st passes hfuel
    exact absurd hfuel (by omega)
  | succ fuel ih =>
    intro pending st passes hfuel
    by_cases hemp : pending.isEmpty
    · left
      refine ⟨st, ?_⟩
      unfold resolveLoop
      rw [if_pos hemp]
    · rcases hpass : runPass els fps pending st [] false with ⟨st2, msg⟩ | ⟨st2, np, prog⟩
      · right; right; right
        refine ⟨msg, ?_⟩
        unfold resolveLoop
        rw [if_neg hemp, hpass]
      · by_cases hprog : prog = false
        · right; left
          refine ⟨np, ?_⟩
          unfold resolveLoop
          rw [if_neg hemp, hpass]
          dsimp only
          rw [if_pos hprog]
        · by_cases hbound : passes + 1 > els.length + 2
          · right; right; left
            unfold resolveLoop
            rw [if_neg hemp, hpass]
            dsimp only
            rw [if_neg hprog, if_pos hbound]
          · have hlt := (runPass_pending els fps pending st [] false st2 np prog hpass).2.2
              rfl (by revert hprog; cases prog <;> simp)
            have hone : resolveLoop els fps (fuel + 1) pending st passes =
                (if pending.isEmpty then some (.ok st)
                 else match runPass els fps pending st [] false with
                   | .aborted _ msg => some (.error (.thrown msg))
                   | .done stB newPending progressed =>
                     if progressed = false then
                       some (.error (.unresolvedScenes
                         (newPending.map (unresolvedName els))))
                     else if passes + 1 > els.length + 2 then
                       some (.error .didNotConverge)
                     else resolveLoop els fps fuel newPending stB (passes + 1)) := rfl
            have hstep : resolveLoop els fps (fuel + 1) pending st passes =
                resolveLoop els fps fuel np st2 (passes + 1) := by
              rw [hone, if_neg hemp, hpass]
              dsimp only
              rw [if_neg hprog, if_neg hbound]
            rw [hstep]
            exact ih np st2 (passes + 1) (by simp only [List.length_nil] at hlt; omega)

/-- Witness for C5 on the backward-referencing document: the loop at the
resolver's own fuel terminates in one of the described outcomes. -/
theorem c5_loop_trichotomy_witness :
    (∃ stF, resolveLoop (exDocBackward.children.filter fun c => c.tag = "scene") 30 3
        [0, 1] (initState 2) 0 = some (.ok stF)) ∨
    (∃ np : List Nat, resolveLoop (exDocBackward.children.filter fun c => c.tag = "scene") 30 3
        [0, 1] (initState 2) 0 =
      some (.error (.unresolvedScenes (np.map
        (unresolvedName (exDocBackward.children.filter fun c => c.tag = "scene")))))) ∨
    (resolveLoop (exDocBackward.children.filter fun c => c.tag = "scene") 30 3
        [0, 1] (initState 2) 0 = some (.error .didNotConverge)) ∨
    (∃ msg, resolveLoop (exDocBackward.children.filter fun c => c.tag = "scene") 30 3
        [0, 1] (initState 2) 0 = some (.error (.thrown msg))) :=
  c5_loop_trichotomy (exDocBackward.children.filter fun c => c.tag = "scene") 30 3
    [0, 1] (initState 2) 0 (by norm_num)

end VideoML

namespace VideoML

/-- The patch loop processes a concatenation by finishing the first batch
and feeding its document into the second. -/
theorem applyPatchList_append (enforceSealed : Bool) :
    ∀ (pre rest : List VomPatch) (doc : Element),
      applyPatchList doc (pre ++ rest) enforceSealed =
        match applyPatchList doc pre enforceSealed with
        | .ok d => applyPatchList d rest enforceSealed
        | .error e => .error e := by
  intro pre
  induction pre with
  | nil =>
    intro rest doc
    rfl
  | cons p ps ih =>
    intro rest doc
    show applyPatchList doc (p :: (ps ++ rest)) enforceSealed = _
    rw [show applyPatchList doc (p :: (ps ++ rest)) enforceSealed =
        (match applyOnePatch doc p enforceSealed with
         | .error e => .error e
         | .ok doc2 => applyPatchList doc2 (ps ++ rest) enforceSealed) from rfl]
    rw [show applyPatchList doc (p :: ps) enforceSealed =
        (match applyOnePatch doc p enforceSealed with
         | .error e => .error e
         | .ok doc2 => applyPatchList doc2 ps enforceSealed) from rfl]
    cases h : applyOnePatch doc p enforceSealed with
    | error e => rfl
    | ok d => exact ih rest d

/-- C10 (amended): with enforcement on, every structural patch whose target
node's nearest enclosing scene element is marked sealed fails with the
sealed-scene error naming that scene (first conjunct), and a batch
containing such a patch aborts there: whatever prefix produced the current
document, the whole batch returns that error and no patched document (second
conjunct).  `findSceneAncestor` stops at the nearest scene, so a sealed
scene further out does not protect nodes under an unsealed inner scene — the
counterexample to the claim as stated. -/
theorem c10_sealed_patch_rejected (doc : Element) (patch : VomPatch) (tid : String)
    (target : Element) (anc : List Element) (scene : Element)
    (h1 : structuralTargetId patch = some tid)
    (h2 : chainToFirstId doc tid [] = some (target, anc))
    (h3 : patchNeedsParent patch = true → anc ≠ [])
    (h4 : findSceneAncestor target anc = some scene)
    (h5 : ((getAttr scene "sealed").orElse fun _ => getAttr scene "data-sealed") = some "true") :
    applyOnePatch doc patch true =
      .error ("Cannot patch sealed scene \"" ++ ((getAttr scene "id").getD "unknown") ++ "\".") ∧
    ∀ (pre rest : List VomPatch) (doc0 : Element),
      applyPatchList doc0 pre true = .ok doc →
      applyPatchList doc0 (pre ++ patch :: rest) true =
        .error ("Cannot patch sealed scene \"" ++ ((getAttr scene "id").getD "unknown") ++ "\".") := by
  have hassert : assertNotSealed true target anc =
      .error ("Cannot patch sealed scene \"" ++ ((getAttr scene "id").getD "unknown") ++ "\".") := by
    unfold assertNotSealed
    rw [if_neg (by simp)]
    rw [h4]
    dsimp only
    rw [if_pos h5]
  have hmain : applyOnePatch doc patch true =
      .error ("Cannot patch sealed scene \"" ++ ((getAttr scene "id").getD "unknown") ++ "\".") := by
    cases patch with
    | appendNode parentId node index =>
      simp only [structuralTargetId, Option.some.injEq] at h1
      unfold applyOnePatch
      rw [h1]
      dsimp only
      rw [h2]
      dsimp only
      rw [hassert]
    | removeNode nodeId =>
      simp only [structuralTargetId, Option.some.injEq] at h1
      unfold applyOnePatch
      rw [h1]
      dsimp only
      rw [h2]
      dsimp only
      rw [if_neg (by simpa using h3 rfl)]
      rw [hassert]
    | setAttr nodeId name value =>
      simp only [structuralTargetId, Option.some.injEq] at h1
      unfold applyOnePatch
      rw [h1]
      dsimp only
      rw [h2]
      dsimp only
      rw [hassert]
    | setText nodeId textContent =>
      simp only [structuralTargetId, Option.some.injEq] at h1
      unfold applyOnePatch
      rw [h1]
      dsimp only
      rw [h2]
      dsimp only
      rw [hassert]
    | replaceSubtree nodeId node =>
      simp only [structuralTargetId, Option.some.injEq] at h1
      unfold applyOnePatch
      rw [h1]
      dsimp only
      rw [h2]
      dsimp only
      rw [if_neg (by simpa using h3 rfl)]
      rw [hassert]
    | sealScene sceneId => exact absurd h1 (by simp [structuralTargetId])
  refine ⟨hmain, ?_⟩
  intro pre rest doc0 hpre
  rw [applyPatchList_append, hpre]
  show applyPatchList doc (patch :: rest) true = _
  unfold applyPatchList
  rw [hmain]

/-- Witness for C10 (amended) on the sealed single-scene document: the
`setAttr` patch addressed to the box under the sealed scene `sc` is
rejected with the sealed-scene error, and a batch carrying it aborts. -/
theorem c10_sealed_patch_rejected_witness :
    applyOnePatch exDocSealed (.setAttr "b" "x" (some "1")) true =
      .error "Cannot patch sealed scene \"sc\"." ∧
    applyPatchList exDocSealed [VomPatch.setAttr "b" "x" (some "1")] true =
      .error "Cannot patch sealed scene \"sc\"." := by
  have h := c10_sealed_patch_rejected exDocSealed (.setAttr "b" "x" (some "1")) "b"
    (.mk "box" [("id", "b")] [] "")
    [.mk "scene" [("id", "sc"), ("sealed", "true")] [.mk "box" [("id", "b")] [] ""] "",
     exDocSealed]
    (.mk "scene" [("id", "sc"), ("sealed", "true")] [.mk "box" [("id", "b")] [] ""] "")
    rfl (by with_unfolding_all rfl)
    (by intro hcontra; simp [patchNeedsParent] at hcontra)
    (by with_unfolding_all rfl) (by with_unfolding_all rfl)
  exact ⟨h.1, h.2 [] [] exDocSealed rfl⟩

/-- C10 counterexample: in `exDocNestedScenes` the target node `t` lies
inside the sealed scene `outer` (through the unsealed scene `inner`), yet
with enforcement on the structural `setAttr` patch succeeds and the returned
document carries the new attribute: the claim's "target node lies inside a
scene marked sealed" does not hold of the code, which consults only the
nearest scene ancestor. -/
theorem c10_counterexample_nested_sealed :
    insideSealedScene exDocNestedScenes "t" = true ∧
    applyVomPatchesInBrowser exDocNestedScenes [.setAttr "t" "x" (some "1")] true =
      .ok (.mk "vml" [("id", "v")]
        [.mk "scene" [("id", "outer"), ("sealed", "true")]
          [.mk "scene" [("id", "inner")]
            [.mk "box" [("id", "t"), ("x", "1")] [] ""] ""] ""] "") := by
  constructor
  · with_unfolding_all rfl
  · with_unfolding_all rfl

end VideoML

namespace VideoML

/-- A successfully parsed cue's id is its element's `id` attribute. -/
theorem parseCue_id (el : Element) (ctx : TimeEvalContext) (cue : CueSpec)
    (h : parseCue el ctx = .ok cue) : getAttr el "id" = some cue.id := by
  unfold parseCue at h
  cases hid : getAttr el "id" with
  | none =>
    rw [hid] at h
    exact absurd h (by simp)
  | some id =>
    rw [hid] at h
    dsimp only at h
    cases htr : parseTimeRange el ctx ("cue \"" ++ id ++ "\"") with
    | error e =>
      rw [htr] at h
      exact absurd h (by simp)
    | ok time =>
      rw [htr] at h
      dsimp only at h
      cases hcc : parseCueChildren el.children ctx with
      | error e =>
        rw [hcc] at h
        exact absurd h (by simp)
      | ok sb =>
        rw [hcc] at h
        obtain ⟨segments, bullets⟩ := sb
        simp only [Except.ok.injEq] at h
        rw [← h]


/-- Effect of the scene-children loop on the shared state: the scene result
array and the scene time indices are untouched; the cue id set only grows and
stays duplicate-free (every insertion is guarded by the `has` check); and on
success the ids appended are exactly the `id` attributes of the cue children,
in order. -/
theorem processSceneChildren_state (ctx : TimeEvalContext) :
    ∀ (children : List Element) (st : ResolveState) (items : List SceneItem)
      (layers : List LayerSpec) (comps : List ComponentSpec) (componentIndex : Nat)
      (st' : ResolveState)
      (res : Except EvalErr (List SceneItem × List LayerSpec × List ComponentSpec)),
      processSceneChildren children ctx st items layers comps componentIndex = (st', res) →
      st'.scenes = st.scenes ∧
      st'.sceneStartIndex = st.sceneStartIndex ∧
      st'.sceneEndIndex = st.sceneEndIndex ∧
      (∃ extra, st'.cueIds = st.cueIds ++ extra) ∧
      (st.cueIds.Nodup → st'.cueIds.Nodup) ∧
      (∀ r, res = .ok r →
        st'.cueIds = st.cueIds ++
          ((children.filter fun c => c.tag = "cue").filterMap fun c => getAttr c "id")) := by
  intro children
  induction children with
  | nil =>
    intro st items layers comps componentIndex st' res h
    unfold processSceneChildren at h
    simp only [Prod.mk.injEq] at h
    obtain ⟨h1, -⟩ := h
    rw [← h1]
    exact ⟨rfl, rfl, rfl, ⟨[], by simp⟩, fun hn => hn, fun r _ => by simp⟩
  | cons child rest ih =>
    intro st items layers comps componentIndex st' res h
    unfold processSceneChildren at h
    by_cases hcue : child.tag = "cue"
    · rw [if_pos hcue] at h
      cases hpc : parseCue child ctx with
      | error e =>
        rw [hpc] at h
        dsimp only at h
        simp only [Prod.mk.injEq] at h
        obtain ⟨h1, h2⟩ := h
        rw [← h1]
        refine ⟨rfl, rfl, rfl, ⟨[], by simp⟩, fun hn => hn, fun r hr => ?_⟩
        rw [← h2] at hr
        exact absurd hr (by simp)
      | ok cue =>
        rw [hpc] at h
        dsimp only at h
        by_cases hdup : st.cueIds.contains cue.id = true
        · rw [if_pos hdup] at h
          simp only [Prod.mk.injEq] at h
          obtain ⟨h1, h2⟩ := h
          rw [← h1]
          refine ⟨rfl, rfl, rfl, ⟨[], by simp⟩, fun hn => hn, fun r hr => ?_⟩
          rw [← h2] at hr
          exact absurd hr (by simp)
        · rw [if_neg hdup] at h
          have hnotmem : cue.id ∉ st.cueIds := by simpa using hdup
          cases htime : cue.time with
          | some t =>
            rw [htime] at h
            dsimp only at h
            have hih := ih _ _ _ _ _ _ _ h
            obtain ⟨e1, e2, e3, ⟨extra, e4⟩, e5, e6⟩ := hih
            refine ⟨e1, e2, e3, ⟨cue.id :: extra, by rw [e4]; simp⟩, ?_, ?_⟩
            · intro hn
              apply e5
              simp only [List.nodup_append, List.nodup_cons, List.nodup_nil]
              exact ⟨hn, by simp, fun a ha he => hnotmem (List.mem_singleton.mp he ▸ ha)⟩
            · intro r hr
              rw [e6 r hr]
              have hfc : (child :: rest).filter (fun c => c.tag = "cue") =
                  child :: rest.filter fun c => c.tag = "cue" := by
                simp [List.filter_cons, hcue]
              rw [hfc, List.filterMap_cons, parseCue_id child ctx cue hpc]
              simp
          | none =>
            rw [htime] at h
            dsimp only at h
            have hih := ih _ _ _ _ _ _ _ h
            obtain ⟨e1, e2, e3, ⟨extra, e4⟩, e5, e6⟩ := hih
            refine ⟨e1, e2, e3, ⟨cue.id :: extra, by rw [e4]; simp⟩, ?_, ?_⟩
            · intro hn
              apply e5
              simp only [List.nodup_append, List.nodup_cons, List.nodup_nil]
              exact ⟨hn, by simp, fun a ha he => hnotmem (List.mem_singleton.mp he ▸ ha)⟩
            · intro r hr
              rw [e6 r hr]
              have hfc : (child :: rest).filter (fun c => c.tag = "cue") =
                  child :: rest.filter fun c => c.tag = "cue" := by
                simp [List.filter_cons, hcue]
              rw [hfc, List.filterMap_cons, parseCue_id child ctx cue hpc]
              simp
    · rw [if_neg hcue] at h
      have hfilter : (child :: rest).filter (fun c => c.tag = "cue") =
          rest.filter fun c => c.tag = "cue" := by
        simp [List.filter_cons, hcue]
      by_cases hpause : child.tag = "pause"
      · rw [if_pos hpause] at h
        cases hpp : parsePause child ctx with
        | error e =>
          rw [hpp] at h
          dsimp only at h
          simp only [Prod.mk.injEq] at h
          obtain ⟨h1, h2⟩ := h
          rw [← h1]
          refine ⟨rfl, rfl, rfl, ⟨[], by simp⟩, fun hn => hn, fun r hr => ?_⟩
          rw [← h2] at hr
          exact absurd hr (by simp)
        | ok p =>
          rw [hpp] at h
          dsimp only at h
          have hih := ih _ _ _ _ _ _ _ h
          obtain ⟨e1, e2, e3, e4, e5, e6⟩ := hih
          refine ⟨e1, e2, e3, e4, e5, fun r hr => ?_⟩
          rw [hfilter]
          exact e6 r hr
      · rw [if_neg hpause] at h
        by_cases hlayer : child.tag = "layer"
        · rw [if_pos hlayer] at h
          cases hpl : parseLayer child ctx with
          | error e =>
            rw [hpl] at h
            dsimp only at h
            simp only [Prod.mk.injEq] at h
            obtain ⟨h1, h2⟩ := h
            rw [← h1]
            refine ⟨rfl, rfl, rfl, ⟨[], by simp⟩, fun hn => hn, fun r hr => ?_⟩
            rw [← h2] at hr
            exact absurd hr (by simp)
          | ok layer =>
            rw [hpl] at h
            dsimp only at h
            have hih := ih _ _ _ _ _ _ _ h
            obtain ⟨e1, e2, e3, e4, e5, e6⟩ := hih
            refine ⟨e1, e2, e3, e4, e5, fun r hr => ?_⟩
            rw [hfilter]
            exact e6 r hr
        · rw [if_neg hlayer] at h
          by_cases hcont : (child.tag = "sequence" || child.tag = "stack") = true
          · rw [if_pos hcont] at h
            cases hct : parseContainerTiming child ctx with
            | error e =>
              rw [hct] at h
              dsimp only at h
              simp only [Prod.mk.injEq] at h
              obtain ⟨h1, h2⟩ := h
              rw [← h1]
              refine ⟨rfl, rfl, rfl, ⟨[], by simp⟩, fun hn => hn, fun r hr => ?_⟩
              rw [← h2] at hr
              exact absurd hr (by simp)
            | ok containerTiming =>
              rw [hct] at h
              dsimp only at h
              cases hcc : parseContainerChildren child ctx componentIndex
                  containerTiming.1 (if child.tag = "sequence" then .sequence else .stack) with
              | error e =>
                rw [hcc] at h
                dsimp only at h
                simp only [Prod.mk.injEq] at h
                obtain ⟨h1, h2⟩ := h
                rw [← h1]
                refine ⟨rfl, rfl, rfl, ⟨[], by simp⟩, fun hn => hn, fun r hr => ?_⟩
                rw [← h2] at hr
                exact absurd hr (by simp)
              | ok parsed =>
                rw [hcc] at h
                dsimp only at h
                have hih := ih _ _ _ _ _ _ _ h
                obtain ⟨e1, e2, e3, e4, e5, e6⟩ := hih
                refine ⟨e1, e2, e3, e4, e5, fun r hr => ?_⟩
                rw [hfilter]
                exact e6 r hr
          · rw [if_neg hcont] at h
            cases hpe : parseComponentElement child ctx componentIndex none with
            | error e =>
              rw [hpe] at h
              dsimp only at h
              simp only [Prod.mk.injEq] at h
              obtain ⟨h1, h2⟩ := h
              rw [← h1]
              refine ⟨rfl, rfl, rfl, ⟨[], by simp⟩, fun hn => hn, fun r hr => ?_⟩
              rw [← h2] at hr
              exact absurd hr (by simp)
            | ok comp =>
              rw [hpe] at h
              dsimp only at h
              have hih := ih _ _ _ _ _ _ _ h
              obtain ⟨e1, e2, e3, e4, e5, e6⟩ := hih
              refine ⟨e1, e2, e3, e4, e5, fun r hr => ?_⟩
              rw [hfilter]
              exact e6 r hr

end VideoML

namespace VideoML

/-- Effect of processing one scene on the shared state: the scene result array
is untouched, the cue id set only grows, stays duplicate-free, and on success
the appended ids are exactly the scene's direct-child cue ids. -/
theorem processScene_state (el : Element) (ctx : TimeEvalContext)
    (st st' : ResolveState) (res : Except EvalErr SceneData)
    (h : processScene el ctx st = (st', res)) :
    st'.scenes = st.scenes ∧
    (∃ extra, st'.cueIds = st.cueIds ++ extra) ∧
    (st.cueIds.Nodup → st'.cueIds.Nodup) ∧
    (∀ d, res = .ok d → st'.cueIds = st.cueIds ++ sceneCueIds el) := by
  unfold processScene at h
  cases hid : getAttr el "id" with
  | none =>
    rw [hid] at h
    dsimp only at h
    simp only [Prod.mk.injEq] at h
    obtain ⟨h1, h2⟩ := h
    subst h1
    refine ⟨rfl, ⟨[], by simp⟩, fun hn => hn, fun d hd => ?_⟩
    rw [← h2] at hd
    exact absurd hd (by simp)
  | some sceneId =>
    rw [hid] at h
    dsimp only at h
    by_cases hs : sceneId = ""
    · simp only [if_pos hs] at h
      simp only [Prod.mk.injEq] at h
      obtain ⟨h1, h2⟩ := h
      subst h1
      refine ⟨rfl, ⟨[], by simp⟩, fun hn => hn, fun d hd => ?_⟩
      rw [← h2] at hd
      exact absurd hd (by simp)
    simp only [if_neg hs] at h
    cases hpt : parseTiming el ctx with
    | error e =>
      rw [hpt] at h
      dsimp only at h
      simp only [Prod.mk.injEq] at h
      obtain ⟨h1, h2⟩ := h
      subst h1
      refine ⟨rfl, ⟨[], by simp⟩, fun hn => hn, fun d hd => ?_⟩
      rw [← h2] at hd
      exact absurd hd (by simp)
    | ok sceneTiming =>
      rw [hpt] at h
      dsimp only at h
      rcases hq : processSceneChildren el.children ctx st [] [] [] 0 with ⟨st2, r2⟩
      rw [hq] at h
      obtain ⟨e1, -, -, e4, e5, e6⟩ :=
        processSceneChildren_state ctx el.children st [] [] [] 0 st2 r2 hq
      cases r2 with
      | error e =>
        dsimp only at h
        simp only [Prod.mk.injEq] at h
        obtain ⟨h1, h2⟩ := h
        subst h1
        refine ⟨e1, e4, e5, fun d hd => ?_⟩
        rw [← h2] at hd
        exact absurd hd (by simp)
      | ok triple =>
        obtain ⟨items2, layers2, comps2⟩ := triple
        dsimp only at h
        simp only [Prod.mk.injEq] at h
        obtain ⟨h1, h2⟩ := h
        subst h1
        refine ⟨e1, e4, e5, fun d hd => ?_⟩
        rw [e6 (items2, layers2, comps2) rfl]
        rfl

/-- Committing a scene result leaves the cue id set unchanged. -/
theorem commitScene_cueIds (st : ResolveState) (i : Nat) (d : SceneData) :
    (commitScene st i d).cueIds = st.cueIds := by
  rcases d with ⟨id, title, time, items, layers, comps⟩
  unfold commitScene
  cases time with
  | none => rfl
  | some t =>
    rcases t with ⟨s, e⟩
    cases s <;> cases e <;> rfl

/-- Committing a scene result sets exactly its slot of the result array. -/
theorem commitScene_scenes (st : ResolveState) (i : Nat) (d : SceneData) :
    (commitScene st i d).scenes = st.scenes.set i (some d) := by
  rcases d with ⟨id, title, time, items, layers, comps⟩
  unfold commitScene
  cases time with
  | none => rfl
  | some t =>
    rcases t with ⟨s, e⟩
    cases s <;> cases e <;> rfl

/-- Committing into a still-unresolved slot adds exactly that scene's cue ids
to the committed multiset. -/
theorem committedOf_zip_set :
    ∀ (els : List Element) (scenes : List (Option SceneData)) (idx : Nat) (d : SceneData),
      scenes[idx]? = some none →
      committedOf (els.zip (scenes.set idx (some d))) =
        committedOf (els.zip scenes) + (sceneCueIds (els.getD idx dummyElement) : Multiset String) := by
  intro els
  induction els with
  | nil =>
    intro scenes idx d hslot
    show (0 : Multiset String) = 0 + ((sceneCueIds dummyElement : List String) : Multiset String)
    rw [show sceneCueIds dummyElement = [] from rfl]
    simp
  | cons e els ih =>
    intro scenes idx d hslot
    cases scenes with
    | nil => simp at hslot
    | cons s scenes' =>
      cases idx with
      | zero =>
        simp only [List.getElem?_cons_zero, Option.some.injEq] at hslot
        subst hslot
        show (sceneCueIds e : Multiset String) + committedOf (els.zip scenes') =
          committedOf (els.zip scenes') + (sceneCueIds e : Multiset String)
        exact add_comm _ _
      | succ j =>
        simp only [List.getElem?_cons_succ] at hslot
        cases s with
        | none =>
          show committedOf (els.zip (scenes'.set j (some d))) =
            committedOf (els.zip scenes') + (sceneCueIds (els.getD j dummyElement) : Multiset String)
          exact ih scenes' j d hslot
        | some x =>
          show (sceneCueIds e : Multiset String) + committedOf (els.zip (scenes'.set j (some d))) =
            (sceneCueIds e : Multiset String) + committedOf (els.zip scenes') +
              (sceneCueIds (els.getD j dummyElement) : Multiset String)
          rw [ih scenes' j d hslot, add_assoc]

/-- With every slot resolved, the committed multiset is exactly the document's
direct-child cue id list. -/
theorem committedOf_allSome :
    ∀ (els : List Element) (scenes : List (Option SceneData)),
      els.length = scenes.length →
      (∀ i, i < els.length → ∃ d, scenes[i]? = some (some d)) →
      committedOf (els.zip scenes) = ((els.map sceneCueIds).flatten : Multiset String) := by
  intro els
  induction els with
  | nil =>
    intro scenes hlen hall
    simp [committedOf]
  | cons e els ih =>
    intro scenes hlen hall
    cases scenes with
    | nil => simp at hlen
    | cons s scenes' =>
      obtain ⟨d, hd⟩ := hall 0 (by simp)
      simp only [List.getElem?_cons_zero, Option.some.injEq] at hd
      subst hd
      show (sceneCueIds e : Multiset String) + committedOf (els.zip scenes') =
        (((sceneCueIds e ++ (els.map sceneCueIds).flatten) : List String) : Multiset String)
      rw [ih scenes' (by simpa using hlen)
        (fun i hi => by simpa using hall (i + 1) (by simpa using Nat.succ_lt_succ hi))]
      rw [← Multiset.coe_add]

/-- Nothing is committed in the initial all-`none` result array. -/
theorem committedOf_replicate_none :
    ∀ (els : List Element) (n : Nat),
      committedOf (els.zip (List.replicate n none)) = 0 := by
  intro els
  induction els with
  | nil => intro n; simp [committedOf]
  | cons e els ih =>
    intro n
    cases n with
    | zero => simp [committedOf]
    | succ m =>
      show committedOf ((e, none) :: els.zip (List.replicate m none)) = 0
      show committedOf (els.zip (List.replicate m none)) = 0
      exact ih m

end VideoML

namespace VideoML

/-- One pass of the fixed-point loop preserves the cue bookkeeping invariant:
the cue id set stays duplicate-free and dominates (as a multiset) the direct
cue ids of the committed scenes, the new pending list exactly covers the
still-unresolved slots, and slots only move from unresolved to committed. -/
theorem runPass_cueIds (els : List Element) (fps : ℚ) :
    ∀ (rest : List Nat) (st : ResolveState) (keptRev : List Nat) (progressed : Bool)
      (st2 : ResolveState) (np : List Nat) (prog2 : Bool),
      runPass els fps rest st keptRev progressed = .done st2 np prog2 →
      st.scenes.length = els.length →
      st.cueIds.Nodup →
      committedOf (els.zip st.scenes) ≤ (st.cueIds : Multiset String) →
      (∀ i ∈ rest, i < els.length ∧ st.scenes[i]? = some none) →
      rest.Nodup →
      (∀ i ∈ keptRev, i < els.length ∧ st.scenes[i]? = some none) →
      (∀ i ∈ keptRev, i ∉ rest) →
      keptRev.Nodup →
      (∀ i, i < els.length → st.scenes[i]? = some none → i ∈ rest ∨ i ∈ keptRev) →
      st2.scenes.length = els.length ∧
      st2.cueIds.Nodup ∧
      committedOf (els.zip st2.scenes) ≤ (st2.cueIds : Multiset String) ∧
      (∀ i ∈ np, i < els.length ∧ st2.scenes[i]? = some none) ∧
      np.Nodup ∧
      (∀ i, i < els.length → st2.scenes[i]? = some none → i ∈ np) := by
  intro rest
  induction rest with
  | nil =>
    intro st keptRev progressed st2 np prog2 h H1 H2 H3 H4 H5 H6 H7 H8 H9
    unfold runPass at h
    simp only [PassResult.done.injEq] at h
    obtain ⟨h1, h2, -⟩ := h
    subst h1
    subst h2
    refine ⟨H1, H2, H3, fun i hi => H6 i (List.mem_reverse.mp hi), List.nodup_reverse.mpr H8,
      fun i hi hs => List.mem_reverse.mpr ((H9 i hi hs).resolve_left (by simp))⟩
  | cons index rest' ih =>
    intro st keptRev progressed st2 np prog2 h H1 H2 H3 H4 H5 H6 H7 H8 H9
    unfold runPass at h
    dsimp only at h
    rcases hps : processScene (els.getD index dummyElement) (buildCtx els fps st index) st
      with ⟨stm, r⟩
    rw [hps] at h
    obtain ⟨p1, ⟨extra, p2⟩, p3, p4⟩ := processScene_state _ _ _ _ _ hps
    have hmLen : stm.scenes.length = els.length := by rw [p1]; exact H1
    have hmNodup : stm.cueIds.Nodup := p3 H2
    have hmLe : committedOf (els.zip stm.scenes) ≤ (stm.cueIds : Multiset String) := by
      rw [p1, p2]
      refine le_trans H3 ?_
      rw [← Multiset.coe_add]
      exact self_le_add_right _ _
    obtain ⟨hin, hslot⟩ := H4 index (by simp)
    cases r with
    | ok data =>
      dsimp only at h
      have hcue : stm.cueIds = st.cueIds ++ sceneCueIds (els.getD index dummyElement) :=
        p4 data rfl
      have hIndexNotRest : index ∉ rest' := (List.nodup_cons.mp H5).1
      refine ih (commitScene stm index data) keptRev true st2 np prog2 h ?_ ?_ ?_ ?_ ?_ ?_ ?_ H8 ?_
      · rw [commitScene_scenes]
        simpa using hmLen
      · rw [commitScene_cueIds]
        exact hmNodup
      · rw [commitScene_scenes, commitScene_cueIds, p1, hcue,
          committedOf_zip_set els st.scenes index data hslot, ← Multiset.coe_add]
        exact add_le_add_right H3 _
      · intro i hi
        obtain ⟨hlt, hsl⟩ := H4 i (List.mem_cons_of_mem _ hi)
        refine ⟨hlt, ?_⟩
        rw [commitScene_scenes, p1, List.getElem?_set_ne (fun hc => hIndexNotRest (by rw [hc]; exact hi))]
        exact hsl
      · exact (List.nodup_cons.mp H5).2
      · intro i hi
        obtain ⟨hlt, hsl⟩ := H6 i hi
        have hne : index ≠ i := fun hc => H7 i hi (hc ▸ List.mem_cons_self index rest')
        refine ⟨hlt, ?_⟩
        rw [commitScene_scenes, p1, List.getElem?_set_ne hne]
        exact hsl
      · exact fun i hi hc => H7 i hi (List.mem_cons_of_mem _ hc)
      · intro i hlt hs
        rw [commitScene_scenes, p1] at hs
        by_cases hie : index = i
        · subst hie
          rw [List.getElem?_set_eq_of_lt (some data) (H1 ▸ hin)] at hs
          exact absurd hs (by simp)
        · rw [List.getElem?_set_ne hie] at hs
          rcases H9 i hlt hs with hmem | hmem
          · rcases List.mem_cons.mp hmem with hc | hc
            · exact absurd hc.symm hie
            · exact Or.inl hc
          · exact Or.inr hmem
    | error e =>
      cases e with
      | missingRef ref =>
        dsimp only at h
        refine ih stm (index :: keptRev) progressed st2 np prog2 h hmLen hmNodup hmLe ?_
          (List.nodup_cons.mp H5).2 ?_ ?_ ?_ ?_
        · intro i hi
          obtain ⟨hlt, hsl⟩ := H4 i (List.mem_cons_of_mem _ hi)
          exact ⟨hlt, p1 ▸ hsl⟩
        · intro i hi
          rcases List.mem_cons.mp hi with hc | hc
          · subst hc
            exact ⟨hin, p1 ▸ hslot⟩
          · obtain ⟨hlt, hsl⟩ := H6 i hc
            exact ⟨hlt, p1 ▸ hsl⟩
        · intro i hi
          rcases List.mem_cons.mp hi with hc | hc
          · subst hc
            exact (List.nodup_cons.mp H5).1
          · exact fun hcc => H7 i hc (List.mem_cons_of_mem _ hcc)
        · refine List.nodup_cons.mpr ⟨?_, H8⟩
          intro hc
          exact H7 index hc (List.mem_cons_self index rest')
        · intro i hlt hs
          rw [p1] at hs
          rcases H9 i hlt hs with hmem | hmem
          · rcases List.mem_cons.mp hmem with hc | hc
            · subst hc
              exact Or.inr (List.mem_cons_self i keptRev)
            · exact Or.inl hc
          · exact Or.inr (List.mem_cons_of_mem _ hmem)
      | hard msg =>
        dsimp only at h
        simp at h

/-- The fixed-point loop, on success, leaves every scene committed with a
duplicate-free cue id set dominating the committed cue ids. -/
theorem resolveLoop_cueIds (els : List Element) (fps : ℚ) :
    ∀ (fuel : Nat) (pending : List Nat) (st : ResolveState) (passes : Nat)
      (stF : ResolveState),
      resolveLoop els fps fuel pending st passes = some (.ok stF) →
      st.scenes.length = els.length →
      st.cueIds.Nodup →
      committedOf (els.zip st.scenes) ≤ (st.cueIds : Multiset String) →
      (∀ i ∈ pending, i < els.length ∧ st.scenes[i]? = some none) →
      pending.Nodup →
      (∀ i, i < els.length → st.scenes[i]? = some none → i ∈ pending) →
      stF.scenes.length = els.length ∧
      stF.cueIds.Nodup ∧
      committedOf (els.zip stF.scenes) ≤ (stF.cueIds : Multiset String) ∧
      (∀ i, i < els.length → ∃ d, stF.scenes[i]? = some (some d)) := by
  intro fuel
  induction fuel with
  | zero =>
    intro pending st passes stF h
    exact absurd h (by simp [resolveLoop])
  | succ fuel ih =>
    intro pending st passes stF h H1 H2 H3 H4 H5 H6
    have hone : resolveLoop els fps (fuel + 1) pending st passes =
        (if pending.isEmpty then some (.ok st)
         else
           match runPass els fps pending st [] false with
           | .aborted _ msg => some (.error (.thrown msg))
           | .done st2 newPending progressed =>
             let passes2 := passes + 1
             if progressed = false then
               some (.error (.unresolvedScenes (newPending.map (unresolvedName els))))
             else if passes2 > els.length + 2 then
               some (.error .didNotConverge)
             else
               resolveLoop els fps fuel newPending st2 passes2) := rfl
    rw [hone] at h
    by_cases hemp : pending.isEmpty
    · rw [if_pos hemp] at h
      simp only [Option.some.injEq, Except.ok.injEq] at h
      subst h
      refine ⟨H1, H2, H3, fun i hi => ?_⟩
      obtain ⟨x, hx⟩ : ∃ x, st.scenes[i]? = some x :=
        ⟨_, List.getElem?_eq_getElem (by omega)⟩
      cases x with
      | none =>
        have := H6 i hi hx
        rw [List.isEmpty_iff.mp hemp] at this
        exact absurd this (by simp)
      | some d => exact ⟨d, hx⟩
    · rw [if_neg hemp] at h
      rcases hrp : runPass els fps pending st [] false with ⟨sta, msg⟩ | ⟨st2, np, prog⟩
      · rw [hrp] at h
        exact absurd h (by simp)
      · rw [hrp] at h
        dsimp only at h
        by_cases hprog : prog = false
        · rw [if_pos hprog] at h
          exact absurd h (by simp)
        · rw [if_neg hprog] at h
          by_cases hpass : passes + 1 > els.length + 2
          · rw [if_pos hpass] at h
            exact absurd h (by simp)
          · rw [if_neg hpass] at h
            obtain ⟨G1, G2, G3, G4, G5, G6⟩ :=
              runPass_cueIds els fps pending st [] false st2 np prog hrp H1 H2 H3 H4 H5
                (by simp) (by simp) List.nodup_nil
                (fun i hi hs => Or.inl (H6 i hi hs))
            exact ih np st2 (passes + 1) stF h G1 G2 G3 G4 G5 G6

end VideoML

namespace VideoML

/-- A successful load means the fixed-point loop itself succeeded on the
scene elements. -/
theorem load_ok_resolveLoop (root : Element) (spec : VideoSpec)
    (h : loadVideoFileFromXml root = .ok spec) :
    ∃ stF, resolveLoop (root.children.filter fun c => c.tag = "scene")
        ((parseNumber (some ((getAttr root "fps").getD ""))).getD 30)
        ((root.children.filter fun c => c.tag = "scene").length + 1)
        (List.range (root.children.filter fun c => c.tag = "scene").length)
        (initState (root.children.filter fun c => c.tag = "scene").length) 0 =
      some (.ok stF) := by
  unfold loadVideoFileFromXml at h
  dsimp only at h
  split at h
  · exact absurd h (by simp)
  · split at h
    · exact absurd h (by simp)
    · split at h
      · exact absurd h (by simp)
      · split at h
        · exact absurd h (by simp)
        · split at h
          · exact absurd h (by simp)
          · split at h
            · exact absurd h (by simp)
            · exact absurd h (by simp)
            · rename_i stF heq
              exact ⟨stF, heq⟩

/-- C2, amended: cue id uniqueness is enforced exactly for the cues that are
direct children of scene elements.  Whenever `loadVideoFileFromXml` succeeds,
the direct-child cue ids across all scenes are pairwise distinct — so two
direct-child cues sharing an id always make resolution fail with the
duplicate-cue-id error and are never silently collapsed.  (Cues nested deeper,
e.g. inside a layer, are silently dropped instead; see the counterexample.) -/
theorem c2_load_ok_direct_cue_ids_nodup (root : Element) (spec : VideoSpec)
    (h : loadVideoFileFromXml root = .ok spec) : (docCueIds root).Nodup := by
  obtain ⟨stF, hres⟩ := load_ok_resolveLoop root spec h
  obtain ⟨G1, G2, G3, G4⟩ :=
    resolveLoop_cueIds (root.children.filter fun c => c.tag = "scene")
      ((parseNumber (some ((getAttr root "fps").getD ""))).getD 30)
      ((root.children.filter fun c => c.tag = "scene").length + 1)
      (List.range (root.children.filter fun c => c.tag = "scene").length)
      (initState (root.children.filter fun c => c.tag = "scene").length) 0 stF hres
      (by simp [initState])
      (by simp [initState])
      (by rw [show (initState (root.children.filter fun c => c.tag = "scene").length).scenes =
            List.replicate (root.children.filter fun c => c.tag = "scene").length none from rfl,
          committedOf_replicate_none]
          exact zero_le _)
      (by intro i hi
          refine ⟨List.mem_range.mp hi, ?_⟩
          rw [show (initState (root.children.filter fun c => c.tag = "scene").length).scenes =
            List.replicate (root.children.filter fun c => c.tag = "scene").length none from rfl,
            List.getElem?_replicate]
          rw [if_pos (List.mem_range.mp hi)])
      (List.nodup_range _)
      (fun i hi _ => List.mem_range.mpr hi)
  have hc := committedOf_allSome (root.children.filter fun c => c.tag = "scene") stF.scenes
    G1.symm G4
  rw [hc] at G3
  have hnd : Multiset.Nodup (stF.cueIds : Multiset String) := Multiset.coe_nodup.mpr G2
  exact Multiset.coe_nodup.mp (Multiset.nodup_of_le G3 hnd)

/-- Counterexample to C2 as stated: `exDocNestedDupCue` contains two cue
elements with id `c` (one a direct scene child, one nested inside a layer),
yet resolution succeeds, and the resulting composition silently keeps only the
direct-child cue — the layer-nested one is dropped (the layer parses with no
components). -/
theorem c2_counterexample_nested_cue_ignored :
    countCueElementsWithId exDocNestedDupCue "c" = 2 ∧
    loadVideoFileFromXml exDocNestedDupCue =
      .ok { compositions :=
        [{ id := "v", title := none,
           meta := { fps := 30, width := 1280, height := 720, durationSeconds := none },
           posterTime := none, voiceover := none,
           scenes := [{ id := "s1", title := "s1",
                        time := some { startSec := some 0, endSec := none },
                        items := [.cueItem { id := "c", label := "c", segments := [],
                                             bullets := [], provider := none, time := none }],
                        layers := some [{ id := "l", timing := none, visible := none,
                                          zIndex := none, components := [] }],
                        components := none }] }] } :=
  ⟨by with_unfolding_all rfl, by with_unfolding_all rfl⟩

/-- Witness for C2: a document with two distinct direct-child cue ids loads
successfully, and the theorem yields that its cue id list is duplicate-free. -/
theorem c2_load_ok_direct_cue_ids_nodup_witness :
    loadVideoFileFromXml exDocTwoCues =
      .ok { compositions :=
        [{ id := "v", title := none,
           meta := { fps := 30, width := 1280, height := 720, durationSeconds := none },
           posterTime := none, voiceover := none,
           scenes := [{ id := "s1", title := "s1",
                        time := some { startSec := some 0, endSec := none },
                        items := [.cueItem { id := "c1", label := "c1", segments := [],
                                             bullets := [], provider := none, time := none }],
                        layers := none, components := none },
                      { id := "s2", title := "s2",
                        time := some { startSec := some 1, endSec := none },
                        items := [.cueItem { id := "c2", label := "c2", segments := [],
                                             bullets := [], provider := none, time := none }],
                        layers := none, components := none }] }] } ∧
    (docCueIds exDocTwoCues).Nodup :=
  ⟨by with_unfolding_all rfl,
   c2_load_ok_direct_cue_ids_nodup exDocTwoCues
     { compositions :=
        [{ id := "v", title := none,
           meta := { fps := 30, width := 1280, height := 720, durationSeconds := none },
           posterTime := none, voiceover := none,
           scenes := [{ id := "s1", title := "s1",
                        time := some { startSec := some 0, endSec := none },
                        items := [.cueItem { id := "c1", label := "c1", segments := [],
                                             bullets := [], provider := none, time := none }],
                        layers := none, components := none },
                      { id := "s2", title := "s2",
                        time := some { startSec := some 1, endSec := none },
                        items := [.cueItem { id := "c2", label := "c2", segments := [],
                                             bullets := [], provider := none, time := none }],
                        layers := none, components := none }] }] }
     (by with_unfolding_all rfl)⟩

end VideoML

namespace VideoML

end VideoML

namespace VideoML

end VideoML

namespace VideoML

end VideoML

namespace VideoML

end VideoML

namespace VideoML

end VideoML

namespace VideoML

end VideoML

namespace VideoML

end VideoML

namespace VideoML

end VideoML

namespace VideoML

end VideoML

namespace VideoML

end VideoML
